import Mathlib

/-!
# get-media-recommendations: the request loop, the loader and the field extractor

A shallow embedding of `recommend.go`: `NewRecommendation`, `ExecuteRequests`,
`LoadParameters` and `GetFields`, with the effects of a run (log lines, remote calls)
kept as an explicit list.

The Go library functions the source calls are embedded after their documented
behaviour:

* `GoJSON`: the scanner of `encoding/json` (a step function per character and a
  stack of parse states, nesting limited to 10000), the decoding of a text into an
  `interface{}` and into a `[]interface{}`, `json.Marshal`, and the rendering of a
  float64 by `fmt.Sprintf("%.5f", x)`, all in exact arithmetic;
* `structpb`: `google.protobuf.Value`, its decoding by `protojson`, and the decoding
  of a text into a `map[string]*structpb.Value`;
* `discoveryenginepb`: the messages the source reads and builds.

The file system and the Discovery Engine client are parameters (`FileSystem`,
`Services`). A text is a `String`: files and payloads are taken to be valid UTF-8.
-/

set_option autoImplicit false

namespace GoJSON

/-- Parse tree of a JSON text as the `encoding/json` scanner delimits it: number
literals, string bodies and object keys are kept as the raw characters of the text. -/
inductive JSON where
  | null
  | bool (b : Bool)
  | number (lit : String)
  | string (raw : String)
  | array (elems : List JSON)
  | object (members : List (String × JSON))
  deriving Repr

/-- One entry of the scanner's `parseState` stack, together with the part of the
enclosing array or object that has been read so far (most recent first). -/
inductive Frame where
  | parseArrayValue (done : List JSON)
  | parseObjectKey (done : List (String × JSON)) (key : Option String)
  | parseObjectValue (done : List (String × JSON)) (key : String) (value : Option JSON)
  deriving Repr

/-- The step functions of `scanner.go`. -/
inductive Step where
  | beginValueOrEmpty | beginValue | beginStringOrEmpty | beginString
  | endValue | endTop
  | inString | inStringEsc | inStringEscU | inStringEscU1 | inStringEscU12 | inStringEscU123
  | neg | one | zero | dot | dot0 | e | eSign | e0
  | t | tr | tru | f | fa | fal | fals | n | nu | nul
  | error
  deriving DecidableEq, Repr

structure Scanner where
  step : Step
  parseState : List Frame
  tok : List Char
  top : Option JSON
  deriving Repr

def maxNestingDepth : Nat := 10000

def isSpace (c : Char) : Bool :=
  c == ' ' || c == '\t' || c == '\r' || c == '\n'

def isDigit (c : Char) : Bool := '0'.toNat ≤ c.toNat && c.toNat ≤ '9'.toNat

def isHex (c : Char) : Bool :=
  isDigit c || ('a'.toNat ≤ c.toNat && c.toNat ≤ 'f'.toNat) ||
    ('A'.toNat ≤ c.toNat && c.toNat ≤ 'F'.toNat)

def Scanner.reset : Scanner :=
  { step := .beginValue, parseState := [], tok := [], top := none }

def Scanner.fail (s : Scanner) : Scanner := { s with step := .error }

/-- A value has been read completely: hand it to the enclosing array or object, or
make it the top-level value. -/
def Scanner.endOfValue (s : Scanner) (v : JSON) : Scanner :=
  match s.parseState with
  | [] => { s with step := .endTop, top := some v, tok := [] }
  | .parseArrayValue done :: ps =>
      { s with step := .endValue, parseState := .parseArrayValue (v :: done) :: ps, tok := [] }
  | .parseObjectValue done key _ :: ps =>
      { s with step := .endValue, parseState := .parseObjectValue done key (some v) :: ps,
               tok := [] }
  | .parseObjectKey _ _ :: _ => s.fail

/-- The closing quote of a string: an object key when the scanner is at
`parseObjectKey`, a string value otherwise. -/
def Scanner.endOfString (s : Scanner) : Scanner :=
  let raw := String.mk s.tok.reverse
  match s.parseState with
  | .parseObjectKey done none :: ps =>
      { s with step := .endValue, parseState := .parseObjectKey done (some raw) :: ps, tok := [] }
  | _ => s.endOfValue (.string raw)

def Scanner.pushParseState (s : Scanner) (f : Frame) (successState : Step) : Scanner :=
  if s.parseState.length + 1 ≤ maxNestingDepth then
    { s with step := successState, parseState := f :: s.parseState, tok := [] }
  else s.fail

def Scanner.stateEndTop (s : Scanner) (c : Char) : Scanner :=
  if isSpace c then s else s.fail

def Scanner.stateEndValue (s : Scanner) (c : Char) : Scanner :=
  match s.parseState with
  | [] => s.stateEndTop c
  | f :: ps =>
    if isSpace c then s
    else match f with
      | .parseObjectKey done (some key) =>
          if c == ':' then
            { s with step := .beginValue, parseState := .parseObjectValue done key none :: ps }
          else s.fail
      | .parseObjectKey _ none => s.fail
      | .parseObjectValue done key (some v) =>
          if c == ',' then
            { s with step := .beginString,
                     parseState := .parseObjectKey ((key, v) :: done) none :: ps }
          else if c == '}' then
            { s with parseState := ps }.endOfValue (.object ((key, v) :: done).reverse)
          else s.fail
      | .parseObjectValue _ _ none => s.fail
      | .parseArrayValue done =>
          if c == ',' then { s with step := .beginValue }
          else if c == ']' then { s with parseState := ps }.endOfValue (.array done.reverse)
          else s.fail

def Scanner.stateBeginValue (s : Scanner) (c : Char) : Scanner :=
  if isSpace c then s
  else if c == '{' then s.pushParseState (.parseObjectKey [] none) .beginStringOrEmpty
  else if c == '[' then s.pushParseState (.parseArrayValue []) .beginValueOrEmpty
  else if c == '"' then { s with step := .inString, tok := [] }
  else if c == '-' then { s with step := .neg, tok := [c] }
  else if c == '0' then { s with step := .zero, tok := [c] }
  else if c == 't' then { s with step := .t }
  else if c == 'f' then { s with step := .f }
  else if c == 'n' then { s with step := .n }
  else if '1'.toNat ≤ c.toNat && c.toNat ≤ '9'.toNat then { s with step := .one, tok := [c] }
  else s.fail

def Scanner.stateBeginString (s : Scanner) (c : Char) : Scanner :=
  if isSpace c then s
  else if c == '"' then { s with step := .inString, tok := [] }
  else s.fail

/-- The number that is being read ends before `c`. -/
def Scanner.endOfNumber (s : Scanner) (c : Char) : Scanner :=
  (s.endOfValue (.number (String.mk s.tok.reverse))).stateEndValue c

def Scanner.state0 (s : Scanner) (c : Char) : Scanner :=
  if c == '.' then { s with step := .dot, tok := c :: s.tok }
  else if c == 'e' || c == 'E' then { s with step := .e, tok := c :: s.tok }
  else s.endOfNumber c

def Scanner.stateESign (s : Scanner) (c : Char) : Scanner :=
  if isDigit c then { s with step := .e0, tok := c :: s.tok } else s.fail

def Scanner.literal (s : Scanner) (c expected : Char) (next : Step) : Scanner :=
  if c == expected then { s with step := next } else s.fail

def Scanner.hex (s : Scanner) (c : Char) (next : Step) : Scanner :=
  if isHex c then { s with step := next, tok := c :: s.tok } else s.fail

/-- One call of `s.step(s, c)`. -/
def Scanner.next (s : Scanner) (c : Char) : Scanner :=
  match s.step with
  | .beginValueOrEmpty =>
      if isSpace c then s
      else if c == ']' then s.stateEndValue c
      else s.stateBeginValue c
  | .beginValue => s.stateBeginValue c
  | .beginStringOrEmpty =>
      if isSpace c then s
      else if c == '}' then
        match s.parseState with
        | .parseObjectKey [] none :: ps => { s with parseState := ps }.endOfValue (.object [])
        | _ => s.fail
      else s.stateBeginString c
  | .beginString => s.stateBeginString c
  | .endValue => s.stateEndValue c
  | .endTop => s.stateEndTop c
  | .inString =>
      if c == '"' then s.endOfString
      else if c == '\\' then { s with step := .inStringEsc, tok := c :: s.tok }
      else if c.toNat < 32 then s.fail
      else { s with tok := c :: s.tok }
  | .inStringEsc =>
      if c == 'b' || c == 'f' || c == 'n' || c == 'r' || c == 't' || c == '\\' || c == '/'
          || c == '"' then
        { s with step := .inString, tok := c :: s.tok }
      else if c == 'u' then { s with step := .inStringEscU, tok := c :: s.tok }
      else s.fail
  | .inStringEscU => s.hex c .inStringEscU1
  | .inStringEscU1 => s.hex c .inStringEscU12
  | .inStringEscU12 => s.hex c .inStringEscU123
  | .inStringEscU123 => s.hex c .inString
  | .neg =>
      if c == '0' then { s with step := .zero, tok := c :: s.tok }
      else if '1'.toNat ≤ c.toNat && c.toNat ≤ '9'.toNat then
        { s with step := .one, tok := c :: s.tok }
      else s.fail
  | .one => if isDigit c then { s with tok := c :: s.tok } else s.state0 c
  | .zero => s.state0 c
  | .dot => if isDigit c then { s with step := .dot0, tok := c :: s.tok } else s.fail
  | .dot0 =>
      if isDigit c then { s with tok := c :: s.tok }
      else if c == 'e' || c == 'E' then { s with step := .e, tok := c :: s.tok }
      else s.endOfNumber c
  | .e =>
      if c == '+' || c == '-' then { s with step := .eSign, tok := c :: s.tok }
      else s.stateESign c
  | .eSign => s.stateESign c
  | .e0 => if isDigit c then { s with tok := c :: s.tok } else s.endOfNumber c
  | .t => s.literal c 'r' .tr
  | .tr => s.literal c 'u' .tru
  | .tru => if c == 'e' then s.endOfValue (.bool true) else s.fail
  | .f => s.literal c 'a' .fa
  | .fa => s.literal c 'l' .fal
  | .fal => s.literal c 's' .fals
  | .fals => if c == 'e' then s.endOfValue (.bool false) else s.fail
  | .n => s.literal c 'u' .nu
  | .nu => s.literal c 'l' .nul
  | .nul => if c == 'l' then s.endOfValue .null else s.fail
  | .error => s

/-- The scanner's `eof`: a number at the very end of the text is closed by feeding
a space; the text is valid when a top-level value is then complete. -/
def Scanner.eof (s : Scanner) : Option JSON :=
  let s1 := s.next ' '
  match s1.step with
  | .endTop => s1.top
  | _ => none

/-- Validity check and parse of a whole text: `none` is a `*json.SyntaxError`. -/
def parse (text : String) : Option JSON :=
  (text.toList.foldl Scanner.next Scanner.reset).eof


/-- Errors, with the wrapping done by `fmt.Errorf("...: %w", err)`. -/
inductive Error where
  | syntaxError
  | unmarshalTypeError (value : String) (type : String)
  | unsupportedValue (value : String)
  | protojson (message : String)
  | external (message : String)
  | wrap (format : String) (err : Error)
  deriving DecidableEq, Repr

/-- A float64. A finite value is denoted by a decimal literal within the float64
range that rounds to it. -/
inductive Float64 where
  | finite (lit : String)
  | inf (negative : Bool)
  | nan
  deriving DecidableEq, Repr

def digitsValue (cs : List Char) : Nat :=
  cs.foldl (fun n c => 10 * n + (c.toNat - '0'.toNat)) 0

/-- Magnitude of a number literal as `mant * 10 ^ exp`. -/
def decimalOf (lit : String) : Nat × Int :=
  let cs := lit.toList.dropWhile (fun c => c == '-')
  let intDigits := cs.takeWhile isDigit
  let afterInt := cs.dropWhile isDigit
  let afterDot := afterInt.dropWhile (fun c => c == '.')
  let fracDigits := afterDot.takeWhile isDigit
  let afterFrac := afterDot.dropWhile isDigit
  let expPart := afterFrac.dropWhile (fun c => c == 'e' || c == 'E')
  let expDigits := expPart.dropWhile (fun c => c == '+' || c == '-')
  let e : Int := digitsValue expDigits
  let exp : Int := if expPart.head? = some '-' then -e else e
  (digitsValue (intDigits ++ fracDigits), exp - fracDigits.length)

/-- What `strconv.ParseFloat(lit, 64)` reports as out of range: the magnitude is at
least `2^1024 - 2^970`, half an ulp above the largest finite float64. -/
def float64OutOfRange (lit : String) : Bool :=
  let d := decimalOf lit
  let limit : Nat := 2 ^ 1024 - 2 ^ 970
  if 0 ≤ d.2 then decide (limit ≤ d.1 * 10 ^ d.2.toNat)
  else decide (limit * 10 ^ (-d.2).toNat ≤ d.1)

def hexValue (c : Char) : Nat :=
  if isDigit c then c.toNat - '0'.toNat
  else if 'a'.toNat ≤ c.toNat && c.toNat ≤ 'f'.toNat then c.toNat - 'a'.toNat + 10
  else c.toNat - 'A'.toNat + 10

def getu4 (a b c d : Char) : Nat :=
  ((hexValue a * 16 + hexValue b) * 16 + hexValue c) * 16 + hexValue d

def isSurrogate (r : Nat) : Bool := 0xD800 ≤ r && r < 0xE000

/-- Value of `utf16.DecodeRune`: the code point of a surrogate pair, else U+FFFD. -/
def decodeRune (r1 r2 : Nat) : Nat :=
  if 0xD800 ≤ r1 && r1 < 0xDC00 && 0xDC00 ≤ r2 && r2 < 0xE000 then
    (r1 - 0xD800) * 1024 + (r2 - 0xDC00) + 0x10000
  else 0xFFFD

def unescape (c : Char) : Char :=
  if c == 'b' then Char.ofNat 8
  else if c == 'f' then Char.ofNat 12
  else if c == 'n' then '\n'
  else if c == 'r' then '\r'
  else if c == 't' then '\t'
  else c

/-- An escape `\uXXXX` that is half of no surrogate pair: an error for protojson
(`strict`), U+FFFD for encoding/json. -/
def replaceUnpaired (strict : Bool) (pending : Bool) (out : Option (List Char)) :
    Option (List Char) :=
  if pending then
    if strict then none else out.map (Char.ofNat 0xFFFD :: ·)
  else out

/-- The decoder's `unquote` on a string body the scanner accepted. `pending` is a
high surrogate escape read just before, still waiting for its low half. -/
def unquoteChars (strict : Bool) : Option Nat → List Char → Option (List Char)
  | p, [] => replaceUnpaired strict p.isSome (some [])
  | p, '\\' :: 'u' :: a :: b :: c :: d :: rest =>
      let r := getu4 a b c d
      match p with
      | some r1 =>
          if decodeRune r1 r != 0xFFFD then
            (unquoteChars strict none rest).map (Char.ofNat (decodeRune r1 r) :: ·)
          else if 0xD800 ≤ r && r < 0xDC00 then
            replaceUnpaired strict true (unquoteChars strict (some r) rest)
          else
            replaceUnpaired strict true
              (replaceUnpaired strict (isSurrogate r)
                ((unquoteChars strict none rest).map
                  (fun cs => if isSurrogate r then cs else Char.ofNat r :: cs)))
      | none =>
          if 0xD800 ≤ r && r < 0xDC00 then unquoteChars strict (some r) rest
          else
            replaceUnpaired strict (isSurrogate r)
              ((unquoteChars strict none rest).map
                (fun cs => if isSurrogate r then cs else Char.ofNat r :: cs))
  | p, '\\' :: e :: rest =>
      replaceUnpaired strict p.isSome ((unquoteChars strict none rest).map (unescape e :: ·))
  | p, c :: rest =>
      replaceUnpaired strict p.isSome ((unquoteChars strict none rest).map (c :: ·))

def unquote (raw : String) : String :=
  match unquoteChars false none raw.toList with
  | some cs => String.mk cs
  | none => ""

def unquoteStrict (raw : String) : Option String :=
  (unquoteChars true none raw.toList).map String.mk

/-- Assignment `m[key] = value` on a Go map kept as an association list: the
entry of an existing key is replaced in place, a new key is added at the end. A nil
map and an empty map are both the empty list. -/
def mapSet {β : Type} (m : List (String × β)) (key : String) (value : β) : List (String × β) :=
  match m with
  | [] => [(key, value)]
  | (k, v) :: rest => if k == key then (key, value) :: rest else (k, v) :: mapSet rest key value

/-- Index expression `m[key]` with the comma-ok form as an `Option`. -/
def mapGet {β : Type} (m : List (String × β)) (key : String) : Option β :=
  match m with
  | [] => none
  | (k, v) :: rest => if k == key then some v else mapGet rest key

/-- The values `encoding/json` stores into an `interface{}`: nil, bool, float64,
string, `[]interface{}` and `map[string]interface{}`. -/
inductive GoValue where
  | nil
  | bool (b : Bool)
  | float64 (x : Float64)
  | string (s : String)
  | slice (elems : List GoValue)
  | map (entries : List (String × GoValue))
  deriving Repr

/-- The first error wins, as in the decoder's `saveError`. -/
def saveError (saved : Option Error) (err : Option Error) : Option Error :=
  match saved with
  | some e => some e
  | none => err

/-- The decoder's `convertNumber`. -/
def convertNumber (lit : String) : Except Error Float64 :=
  if float64OutOfRange lit then .error (.unmarshalTypeError ("number " ++ lit) "float64")
  else .ok (.finite lit)

mutual
/-- The decoder's `valueInterface`: the value decoded into an empty interface, with
the error saved on the way, if any; decoding goes on after a number out of range,
which leaves nil in its place. -/
def valueInterface : JSON → GoValue × Option Error
  | .null => (.nil, none)
  | .bool b => (.bool b, none)
  | .number lit =>
      match convertNumber lit with
      | .ok x => (.float64 x, none)
      | .error err => (.nil, some err)
  | .string raw => (.string (unquote raw), none)
  | .array elems => let r := arrayInterface elems; (.slice r.1, r.2)
  | .object members => let r := objectInterface [] members; (.map r.1, r.2)
/-- The decoder's `arrayInterface`. -/
def arrayInterface : List JSON → List GoValue × Option Error
  | [] => ([], none)
  | x :: xs =>
      let r := valueInterface x
      let rs := arrayInterface xs
      (r.1 :: rs.1, saveError r.2 rs.2)
/-- The decoder's `objectInterface`, `m` being the map built so far. -/
def objectInterface (m : List (String × GoValue)) :
    List (String × JSON) → List (String × GoValue) × Option Error
  | [] => (m, none)
  | (key, v) :: members =>
      let r := valueInterface v
      let rs := objectInterface (mapSet m (unquote key) r.1) members
      (rs.1, saveError r.2 rs.2)
end

/-- Decoding of one JSON value into an element `v.Index(i)` of a `[]interface{}`
that holds `old`: every value replaces the element, except a number out of range,
which saves an error and leaves the element as it is. -/
def elementStore (old : GoValue) : JSON → GoValue × Option Error
  | .number lit =>
      match convertNumber lit with
      | .ok x => (.float64 x, none)
      | .error err => (old, some err)
  | j => valueInterface j

/-- The decoder's `array` on a `[]interface{}`: element `i` is decoded into the
existing element when the slice has one, and into a new nil element otherwise (the
capacity of the slice is not part of the model); the slice ends up with as many
elements as the JSON array. -/
def arrayStore : List GoValue → List JSON → List GoValue × Option Error
  | _, [] => ([], none)
  | [], x :: xs =>
      let r := elementStore .nil x
      let rs := arrayStore [] xs
      (r.1 :: rs.1, saveError r.2 rs.2)
  | old :: olds, x :: xs =>
      let r := elementStore old x
      let rs := arrayStore olds xs
      (r.1 :: rs.1, saveError r.2 rs.2)

/-- The call `json.Unmarshal(data, &v)` for `v` of type `[]interface{}`: the new
value of `v` and the error returned. A text that is not valid JSON is rejected
before anything is stored; `null` sets the slice to nil; any value other than an
array or `null` is a type error that stores nothing. -/
def UnmarshalSlice (data : String) (v : List GoValue) : List GoValue × Option Error :=
  match parse data with
  | none => (v, some .syntaxError)
  | some .null => ([], none)
  | some (.array elems) => arrayStore v elems
  | some (.object _) => (v, some (.unmarshalTypeError "object" "[]interface {}"))
  | some (.string _) => (v, some (.unmarshalTypeError "string" "[]interface {}"))
  | some (.number _) => (v, some (.unmarshalTypeError "number" "[]interface {}"))
  | some (.bool _) => (v, some (.unmarshalTypeError "bool" "[]interface {}"))

/-- Quotient of `a` by `b` rounded to the nearest integer, ties to even. -/
def roundHalfEven (a b : Nat) : Nat :=
  let q := a / b
  let r := a % b
  if 2 * r < b then q
  else if b < 2 * r then q + 1
  else if q % 2 == 0 then q
  else q + 1

/-- Auxiliary for `log2Floor`, by recursion on `fuel`. -/
def log2FloorAux : Nat → Nat → Nat
  | 0, _ => 0
  | fuel + 1, n => if 2 ≤ n then log2FloorAux fuel (n / 2) + 1 else 0

/-- Position of the highest set bit: the floor of the binary logarithm. -/
def log2Floor (n : Nat) : Nat := log2FloorAux n n

/-- The float64 nearest to `n / d` (ties to even), as `mant * 2 ^ exp` with
`mant < 2 ^ 53` or `mant = 2 ^ 53` after a carry, subnormal values included. -/
def nearestFloat64 (n d : Nat) : Nat × Int :=
  if n == 0 then (0, 0)
  else
    let e0 : Int := (log2Floor n : Int) - (log2Floor d : Int)
    let atLeast : Bool :=
      if 0 ≤ e0 then decide (d * 2 ^ e0.toNat ≤ n) else decide (d ≤ n * 2 ^ (-e0).toNat)
    let e : Int := if atLeast then e0 else e0 - 1
    let s : Int := max (e - 52) (-1074)
    let mant : Nat :=
      if 0 ≤ s then roundHalfEven n (d * 2 ^ s.toNat) else roundHalfEven (n * 2 ^ (-s).toNat) d
    (mant, s)

/-- Decimal digits of `n`, padded with zeros on the left to `width` digits. -/
def padDigits (width : Nat) (n : Nat) : String :=
  let ds := Nat.toDigits 10 n
  String.mk (List.replicate (width - ds.length) '0' ++ ds)

/-- Rendering `fmt.Sprintf("%.5f", x)`: the exact value of the float64 rounded to
five decimals, ties to even. -/
def Sprintf5f : Float64 → String
  | .nan => "NaN"
  | .inf false => "+Inf"
  | .inf true => "-Inf"
  | .finite lit =>
      let d := decimalOf lit
      let f : Nat × Int :=
        if 0 ≤ d.2 then nearestFloat64 (d.1 * 10 ^ d.2.toNat) 1
        else nearestFloat64 d.1 (10 ^ (-d.2).toNat)
      let scaled : Nat :=
        if 0 ≤ f.2 then f.1 * 2 ^ f.2.toNat * 100000
        else roundHalfEven (f.1 * 100000) (2 ^ (-f.2).toNat)
      let sign := if lit.toList.head? = some '-' then "-" else ""
      sign ++ padDigits 1 (scaled / 100000) ++ "." ++ padDigits 5 (scaled % 100000)

/-- The bytes written by `json.Marshal`, kept as the tree of the text: strings and
numbers stand for their encodings, the members of an object are in the order
written. -/
inductive Encoded where
  | null
  | bool (b : Bool)
  | number (x : Float64)
  | string (s : String)
  | array (elems : List Encoded)
  | object (members : List (String × Encoded))
  deriving Repr

/-- Insertion of one member into members sorted by key. -/
def insertMember (key : String) (v : Encoded) : List (String × Encoded) → List (String × Encoded)
  | [] => [(key, v)]
  | (k, w) :: rest =>
      if key < k then (key, v) :: (k, w) :: rest else (k, w) :: insertMember key v rest

/-- Members sorted by key, the order in which `json.Marshal` writes a map. -/
def sortMembers : List (String × Encoded) → List (String × Encoded)
  | [] => []
  | (k, v) :: rest => insertMember k v (sortMembers rest)

mutual
/-- The call `json.Marshal(v)` on the value held by an `interface{}`; a float64 that
is not finite is an `UnsupportedValueError`. -/
def Marshal : GoValue → Except Error Encoded
  | .nil => .ok .null
  | .bool b => .ok (.bool b)
  | .float64 (.finite lit) => .ok (.number (.finite lit))
  | .float64 (.inf _) => .error (.unsupportedValue "Inf")
  | .float64 .nan => .error (.unsupportedValue "NaN")
  | .string s => .ok (.string s)
  | .slice elems =>
      match marshalSlice elems with
      | .ok es => .ok (.array es)
      | .error err => .error err
  | .map entries =>
      match marshalMap entries with
      | .ok ms => .ok (.object (sortMembers ms))
      | .error err => .error err
/-- The elements of a slice, in order. -/
def marshalSlice : List GoValue → Except Error (List Encoded)
  | [] => .ok []
  | x :: xs =>
      match Marshal x with
      | .error err => .error err
      | .ok e =>
        match marshalSlice xs with
        | .error err => .error err
        | .ok es => .ok (e :: es)
/-- The entries of a map. -/
def marshalMap : List (String × GoValue) → Except Error (List (String × Encoded))
  | [] => .ok []
  | (k, x) :: entries =>
      match Marshal x with
      | .error err => .error err
      | .ok e =>
        match marshalMap entries with
        | .error err => .error err
        | .ok ms => .ok ((k, e) :: ms)
end

end GoJSON

namespace structpb

open GoJSON

/-- The message `google.protobuf.Value`: null, number, string, bool, struct or list. -/
inductive Value where
  | null
  | number (x : Float64)
  | string (s : String)
  | bool (b : Bool)
  | struct (fields : List (String × Value))
  | list (values : List Value)
  deriving Repr

/-- A Go `map[string]*structpb.Value`; `none` is a nil pointer. -/
abbrev Fields := List (String × Option Value)

/-- The message `google.protobuf.Struct`. -/
structure Struct where
  Fields : Fields
  deriving Repr

/-- The accessor `GetStringValue`, safe on a nil pointer: the string of a string
value, the empty string for anything else. -/
def Value.GetStringValue : Option Value → String
  | some (.string s) => s
  | _ => ""

/-- The accessor `GetNumberValue`, safe on a nil pointer: the number of a number
value, zero for anything else. -/
def Value.GetNumberValue : Option Value → Float64
  | some (.number x) => x
  | _ => .finite "0"

/-- The constructor `structpb.NewBoolValue`. -/
def NewBoolValue (v : Bool) : Value := .bool v

mutual
/-- Decoding of one JSON value by `protojson.Unmarshal` into a `Value`: a number
out of the float64 range, an unpaired surrogate escape and a repeated key of an
object are errors. -/
def unmarshalValue : JSON → Except Error Value
  | .null => .ok .null
  | .bool b => .ok (.bool b)
  | .number lit =>
      if float64OutOfRange lit then .error (.protojson "invalid google.protobuf.Value")
      else .ok (.number (.finite lit))
  | .string raw =>
      match unquoteStrict raw with
      | some s => .ok (.string s)
      | none => .error (.protojson "invalid escape code in string")
  | .array elems =>
      match unmarshalList elems with
      | .ok vs => .ok (.list vs)
      | .error err => .error err
  | .object members =>
      match unmarshalMap [] members with
      | .ok fs => .ok (.struct fs)
      | .error err => .error err
/-- The elements of a `ListValue`. -/
def unmarshalList : List JSON → Except Error (List Value)
  | [] => .ok []
  | x :: xs =>
      match unmarshalValue x with
      | .error err => .error err
      | .ok v =>
        match unmarshalList xs with
        | .error err => .error err
        | .ok vs => .ok (v :: vs)
/-- The fields of a `Struct`, `m` being the map read so far. -/
def unmarshalMap (m : List (String × Value)) :
    List (String × JSON) → Except Error (List (String × Value))
  | [] => .ok m
  | (key, x) :: members =>
      match unquoteStrict key with
      | none => .error (.protojson "invalid escape code in string")
      | some k =>
        if (mapGet m k).isSome then .error (.protojson "duplicate map key")
        else
          match unmarshalValue x with
          | .error err => .error err
          | .ok v => unmarshalMap (mapSet m k v) members
end

/-- Decoding of the members of a JSON object into a `map[string]*structpb.Value` by
`encoding/json`: a `null` member stores a nil pointer, any other member is handed to
the `UnmarshalJSON` method of a new `Value`, and the first error ends the decoding. -/
def objectStore (m : Fields) : List (String × JSON) → Fields × Option Error
  | [] => (m, none)
  | (key, .null) :: members => objectStore (mapSet m (unquote key) none) members
  | (key, x) :: members =>
      match unmarshalValue x with
      | .error err => (m, some err)
      | .ok v => objectStore (mapSet m (unquote key) (some v)) members

/-- The call `json.Unmarshal(data, &v)` for `v` of type `map[string]*structpb.Value`:
the new value of `v` and the error returned. A text that is not valid JSON is
rejected before anything is stored; `null` sets the map to nil; any value other than
an object or `null` is a type error that stores nothing. -/
def UnmarshalFields (data : String) (v : Fields) : Fields × Option Error :=
  match parse data with
  | none => (v, some .syntaxError)
  | some .null => ([], none)
  | some (.object members) => objectStore v members
  | some (.array _) =>
      (v, some (.unmarshalTypeError "array" "map[string]*structpb.Value"))
  | some (.string _) =>
      (v, some (.unmarshalTypeError "string" "map[string]*structpb.Value"))
  | some (.number _) =>
      (v, some (.unmarshalTypeError "number" "map[string]*structpb.Value"))
  | some (.bool _) =>
      (v, some (.unmarshalTypeError "bool" "map[string]*structpb.Value"))

end structpb

namespace discoveryenginepb

/-- Modelled from the spec: the generated message type `Document` is not among the
sources. The spec describes a document-like object that may carry its payload as a
JSON-encoded string or as a structured key/value map, and asks what extraction does
when both are set; the document is represented by what its two accessors return,
each independently of the other. A `*Document` is an `Option Document`, `none`
being nil. -/
structure Document where
  JsonData : String
  StructData : Option structpb.Struct

/-- The accessor `GetJsonData`; safe on a nil document, like every generated accessor. -/
def Document.GetJsonData : Option Document → String
  | some x => x.JsonData
  | none => ""

/-- The accessor `GetStructData`; safe on a nil document. -/
def Document.GetStructData : Option Document → Option structpb.Struct
  | some x => x.StructData
  | none => none

/-- The message `RecommendRequest`, over the type of the `UserEvent` message. -/
structure RecommendRequest (UserEvent : Type) where
  ServingConfig : String
  UserEvent : UserEvent
  PageSize : Int
  Filter : String
  ValidateOnly : Bool
  Params : structpb.Fields

/-- The message `RecommendResponse.RecommendationResult`. -/
structure RecommendationResult where
  Id : String
  Document : Option Document
  Metadata : structpb.Fields

/-- The message `RecommendResponse`. -/
structure RecommendResponse where
  Results : List RecommendationResult

end discoveryenginepb

open GoJSON structpb discoveryenginepb

/-- Conversion `int32(n)` of a Go `int`. -/
def int32 (n : Int) : Int := (n + 2 ^ 31) % 2 ^ 32 - 2 ^ 31

/-- Index expression `m[key]` on a `map[string]*structpb.Value`: the nil pointer for
a key that is not in the map. -/
def mapIndex (m : Fields) (key : String) : Option Value :=
  match mapGet m key with
  | some v => v
  | none => none

/-- Wrapping `fmt.Errorf(format, err)` for a format that ends in `%w`. -/
def Errorf (format : String) (err : Error) : Error := .wrap format err

/-- The package variable `indent`. -/
def indent : String := "..."

structure Recommendation where
  Project : String
  Location : String
  DataStore : String
  Branch : String
  ServingConfig : String
  PageSize : Int
  Filter : String
  UserEvents : List GoValue

structure Results where
  Id : String
  Title : String
  Score : String

/-- The call `json.Marshal(&results)`: the three fields in order, each left out when
it is the empty string (`omitempty`). -/
def MarshalResults (results : Results) : Except Error Encoded :=
  .ok (.object
    (([("id", results.Id), ("title", results.Title), ("score", results.Score)].filter
      (fun kv => kv.2 != "")).map (fun kv => (kv.1, Encoded.string kv.2))))

/-- The collaborators outside the program. File contents are taken as text. -/
structure FileSystem where
  /-- The path returned by `filepath.Abs`; its error is discarded by the caller. -/
  Abs : String → String
  /-- The call `os.ReadFile`. -/
  ReadFile : String → Except Error String

/-- The Discovery Engine client library, over the type of the `UserEvent` message. -/
structure Services (UserEvent : Type) where
  /-- The error of `discoveryengine.NewRecommendationClient`, if any. -/
  NewRecommendationClient : Option Error
  /-- The call `protojson.Unmarshal(rawUserEvent, pbUserEvent)`. -/
  Unmarshal : Encoded → Except Error UserEvent
  /-- The call `client.Recommend`, given the number of calls made before it. -/
  Recommend : Nat → RecommendRequest UserEvent → Except Error RecommendResponse

/-- One field of a log line. -/
inductive LogField where
  | Int (key : String) (i : Int)
  | RawJSON (key : String) (b : Encoded)

/-- What a run does, in order: a line logged at info level, a call of the remote
`Recommend`, the deferred `client.Close`. -/
inductive Effect (UserEvent : Type) where
  | Info (field : Option LogField) (msg : String)
  | Recommend (request : RecommendRequest UserEvent)
  | Close

def NewRecommendation (project : String) (location : String) (dataStore : String)
    (branch : String) (servingConfig : String) (numberResults : Int) (filter : String) :
    Recommendation :=
  { Project := project
    Location := location
    DataStore := dataStore
    Branch := branch
    ServingConfig := servingConfig
    PageSize := int32 numberResults
    Filter := filter
    UserEvents := [] }

def Recommendation.GetFields (_recommendation : Recommendation) (document : Option Document) :
    Except Error Fields :=
  let jd := Document.GetJsonData document
  if jd != "" then
    match UnmarshalFields jd [] with
    | (_, some err) => .error (Errorf "Failed to Unmarshal the Document JSON Data: %w" err)
    | (fields, none) => .ok fields
  else
    match Document.GetStructData document with
    | some sd => .ok sd.Fields
    | none => .ok []

def Recommendation.LoadParameters (fs : FileSystem) (recommendation : Recommendation)
    (inputFile : String) : Recommendation × Option Error :=
  let inputFile := fs.Abs inputFile
  match fs.ReadFile inputFile with
  | .error err =>
      (recommendation, some (Errorf "Reading the Parameter Input File Failed: %w" err))
  | .ok buf =>
      match UnmarshalSlice buf recommendation.UserEvents with
      | (events, some err) =>
          ({ recommendation with UserEvents := events },
            some (Errorf "Parsing the Parameter Input File Failed: %w" err))
      | (events, none) => ({ recommendation with UserEvents := events }, none)

/-- The inner loop of `ExecuteRequests` over `response.Results`, from index `r` on. -/
def resultsLoop {UserEvent : Type} (recommendation : Recommendation) :
    List RecommendationResult → List (Effect UserEvent) × Option Error
  | [] => ([], none)
  | result :: rest =>
      match recommendation.GetFields result.Document with
      | .error err => ([], some (Errorf "Failed to get the Document Data Fields: %w" err))
      | .ok fields =>
          let results : Results :=
            { Id := result.Id
              Title := Value.GetStringValue (mapIndex fields "title")
              Score := Sprintf5f (Value.GetNumberValue (mapIndex result.Metadata "score")) }
          match MarshalResults results with
          | .error err =>
              ([], some (Errorf "Encoding the Response Results as JSON Failed: %w" err))
          | .ok rawResults =>
              let tail := resultsLoop recommendation rest
              (.Info (some (.RawJSON "Results" rawResults)) indent :: tail.1, tail.2)

/-- The outer loop of `ExecuteRequests` over `recommendation.UserEvents`, from index
`i` on; `i` is also the number of calls of `Recommend` made so far, one in each
earlier pass. -/
def eventsLoop {UserEvent : Type} (services : Services UserEvent)
    (recommendation : Recommendation) (servingConfig : String) :
    Nat → List GoValue → List (Effect UserEvent) × Option Error
  | _, [] => ([], none)
  | i, userEvent :: rest =>
      match Marshal userEvent with
      | .error err => ([], some (Errorf "Encoding the User Event as JSON Failed: %w" err))
      | .ok rawUserEvent =>
          let logs : List (Effect UserEvent) :=
            [.Info (some (.Int "Number" (i + 1))) "Initiating Recommendation Request",
             .Info (some (.RawJSON "Parameters" rawUserEvent)) indent]
          match services.Unmarshal rawUserEvent with
          | .error err =>
              (logs, some (Errorf "Encoding the User Event as Protobuf Failed: %w" err))
          | .ok pbUserEvent =>
              let request : RecommendRequest UserEvent :=
                { ServingConfig := servingConfig
                  UserEvent := pbUserEvent
                  PageSize := recommendation.PageSize
                  Filter := recommendation.Filter
                  ValidateOnly := false
                  Params :=
                    mapSet (mapSet (mapSet (mapSet []
                      "disableFallback" (some (NewBoolValue true)))
                      "strictFiltering" (some (NewBoolValue true)))
                      "returnDocument" (some (NewBoolValue true)))
                      "returnScore" (some (NewBoolValue true)) }
              match services.Recommend i request with
              | .error err =>
                  (logs ++ [.Recommend request],
                    some (Errorf "Recommendation Request Failed: %w" err))
              | .ok response =>
                  match resultsLoop recommendation response.Results with
                  | (out, some err) => (logs ++ .Recommend request :: out, some err)
                  | (out, none) =>
                      let tail := eventsLoop services recommendation servingConfig (i + 1) rest
                      (logs ++ .Recommend request :: out ++ tail.1, tail.2)

/-- The effects of a run of `ExecuteRequests`, in order, and the error returned. -/
def Recommendation.ExecuteRequests {UserEvent : Type} (services : Services UserEvent)
    (recommendation : Recommendation) : List (Effect UserEvent) × Option Error :=
  let establishing : Effect UserEvent :=
    .Info none "Establishing a Discovery Engine Recommendation Client"
  match services.NewRecommendationClient with
  | some err =>
      ([establishing],
        some (Errorf "Failed to establish a Discovery Engine Recommendation Client: %w" err))
  | none =>
      let servingConfig :=
        "projects/" ++ recommendation.Project ++ "/locations/" ++ recommendation.Location ++
          "/dataStores/" ++ recommendation.DataStore ++ "/servingConfigs/" ++
          recommendation.ServingConfig
      let run := eventsLoop services recommendation servingConfig 0 recommendation.UserEvents
      (establishing :: run.1 ++ [.Close], run.2)

/-- The requests passed to `Recommend` in a run, in order. -/
def requestsOf {UserEvent : Type} : List (Effect UserEvent) → List (RecommendRequest UserEvent)
  | [] => []
  | .Recommend request :: rest => request :: requestsOf rest
  | _ :: rest => requestsOf rest

mutual
/-- Every number literal of the value is within the float64 range. -/
def numbersInRange : JSON → Bool
  | .number lit => !float64OutOfRange lit
  | .array elems => numbersInRangeList elems
  | .object members => numbersInRangeMembers members
  | _ => true
/-- Every number literal of the values is within the float64 range. -/
def numbersInRangeList : List JSON → Bool
  | [] => true
  | x :: xs => numbersInRange x && numbersInRangeList xs
/-- Every number literal of the members is within the float64 range. -/
def numbersInRangeMembers : List (String × JSON) → Bool
  | [] => true
  | (_, x) :: members => numbersInRange x && numbersInRangeMembers members
end

/-- The value is a JSON object. -/
def GoJSON.JSON.isObject : JSON → Bool
  | .object _ => true
  | _ => false

/-- A client library whose calls all succeed, the remote call returning no results. -/
def quietServices : Services Unit :=
  { NewRecommendationClient := none
    Unmarshal := fun _ => .ok ()
    Recommend := fun _ _ => .ok { Results := [] } }

/-- A file system that holds the same contents under every path. -/
def fileWith (contents : String) : FileSystem :=
  { Abs := fun path => path
    ReadFile := fun _ => .ok contents }

/-- The request built for serving config `s` of data store `d` in project `p`. -/
def sampleRequest (pageSize : Int) (filter : String) : RecommendRequest Unit :=
  { ServingConfig := "projects/p/locations/global/dataStores/d/servingConfigs/s"
    UserEvent := ()
    PageSize := pageSize
    Filter := filter
    ValidateOnly := false
    Params :=
      [("disableFallback", some (.bool true)), ("strictFiltering", some (.bool true)),
       ("returnDocument", some (.bool true)), ("returnScore", some (.bool true))] }

/-- The serving config name that `ExecuteRequests` formats once, before the loop. -/
def servingConfigOf (recommendation : Recommendation) : String :=
  "projects/" ++ recommendation.Project ++ "/locations/" ++ recommendation.Location ++
    "/dataStores/" ++ recommendation.DataStore ++ "/servingConfigs/" ++
    recommendation.ServingConfig

/-- The conversion of one user event to the wire schema: `json.Marshal`, then
`protojson.Unmarshal`. -/
def convert {UserEvent : Type} (services : Services UserEvent) (userEvent : GoValue) :
    Except Error UserEvent :=
  match Marshal userEvent with
  | .error err => .error err
  | .ok rawUserEvent => services.Unmarshal rawUserEvent

/-- The request that one pass of the outer loop populates. -/
def requestFor {UserEvent : Type} (recommendation : Recommendation) (servingConfig : String)
    (pbUserEvent : UserEvent) : RecommendRequest UserEvent :=
  { ServingConfig := servingConfig
    UserEvent := pbUserEvent
    PageSize := recommendation.PageSize
    Filter := recommendation.Filter
    ValidateOnly := false
    Params :=
      mapSet (mapSet (mapSet (mapSet []
        "disableFallback" (some (NewBoolValue true)))
        "strictFiltering" (some (NewBoolValue true)))
        "returnDocument" (some (NewBoolValue true)))
        "returnScore" (some (NewBoolValue true)) }

/-- The line that announces pass number `number` of the outer loop. -/
def announcement {UserEvent : Type} (number : Int) : Effect UserEvent :=
  .Info (some (.Int "Number" number)) "Initiating Recommendation Request"

/-- The line that logs the encoded user event. -/
def parametersLine {UserEvent : Type} (rawUserEvent : Encoded) : Effect UserEvent :=
  .Info (some (.RawJSON "Parameters" rawUserEvent)) indent

/-- The line that logs one encoded result record. -/
def resultsLine {UserEvent : Type} (rawResults : Encoded) : Effect UserEvent :=
  .Info (some (.RawJSON "Results" rawResults)) indent

/-- The first line of a run. -/
def establishing {UserEvent : Type} : Effect UserEvent :=
  .Info none "Establishing a Discovery Engine Recommendation Client"

/-- The record that the inner loop builds for one response item from the fields
extracted from its document. -/
def resultsFor (result : RecommendationResult) (fields : Fields) : Results :=
  { Id := result.Id
    Title := Value.GetStringValue (mapIndex fields "title")
    Score := Sprintf5f (Value.GetNumberValue (mapIndex result.Metadata "score")) }

/-- The encoded record of one response item, or the error of the field extraction. -/
def recordOf (recommendation : Recommendation) (result : RecommendationResult) :
    Except Error Encoded :=
  match recommendation.GetFields result.Document with
  | .error err => .error err
  | .ok fields => MarshalResults (resultsFor result fields)

/-- The result records of a run, in order: the payloads of its `Results` lines. -/
def recordsOf {UserEvent : Type} : List (Effect UserEvent) → List Encoded
  | [] => []
  | .Info (some (.RawJSON key b)) _ :: rest =>
      if key == "Results" then b :: recordsOf rest else recordsOf rest
  | _ :: rest => recordsOf rest

/-- The effect is a line announcing a pass of the outer loop. -/
def isAnnouncement {UserEvent : Type} : Effect UserEvent → Bool
  | .Info (some (.Int key _)) _ => key == "Number"
  | _ => false

/-- The effect is a line that logs a result record. -/
def isResultsLine {UserEvent : Type} : Effect UserEvent → Bool
  | .Info (some (.RawJSON key _)) _ => key == "Results"
  | _ => false

/-- One pass of the outer loop on its own: the effects and the error of the pass for
the event at index `i`. -/
def onePass {UserEvent : Type} (services : Services UserEvent) (recommendation : Recommendation)
    (servingConfig : String) (i : Nat) (userEvent : GoValue) :
    List (Effect UserEvent) × Option Error :=
  eventsLoop services recommendation servingConfig i [userEvent]

/-- Every step of the pass for the event at index `i` succeeds: the conversion, the
remote call and the field extraction of every returned document. -/
def passSucceeds {UserEvent : Type} (services : Services UserEvent)
    (recommendation : Recommendation) (servingConfig : String) (i : Nat)
    (userEvent : GoValue) : Prop :=
  ∃ pbUserEvent response,
    convert services userEvent = .ok pbUserEvent ∧
    services.Recommend i (requestFor recommendation servingConfig pbUserEvent) = .ok response ∧
    ∀ result ∈ response.Results,
      ∃ fields, recommendation.GetFields result.Document = .ok fields

/-- The values of the command-line flags once `flag.Parse` has returned, and the
base name of the program. -/
structure Flags where
  program : String
  projectNumber : String
  location : String
  dataStore : String
  branch : String
  servingConfig : String
  parameterInputFile : String
  numberResults : Int
  filterString : String
  verbose : Bool

/-- What `main` does, in order: the usage text, a log line with a string field, with
an integer field or with none, an error line, an effect of `ExecuteRequests`. -/
inductive MainEffect (UserEvent : Type) where
  | Usage
  | Msg (msg : String)
  | Str (key : String) (val : String) (msg : String)
  | Int (key : String) (i : Int) (msg : String)
  | Err (err : Error) (msg : String)
  | Run (effect : Effect UserEvent)

/-- The function `main` of `main.go` from the point where the flags are parsed: the
exit status of the process and its effects. Returning from `main` is exit status 0. -/
def Main.main {UserEvent : Type} (fs : FileSystem) (services : Services UserEvent) (flags : Flags) :
    Int × List (MainEffect UserEvent) :=
  if flags.projectNumber == "" || flags.location == "" || flags.dataStore == "" ||
      flags.branch == "" || flags.servingConfig == "" || flags.parameterInputFile == "" then
    (1, [.Usage])
  else if flags.numberResults < 1 || flags.numberResults > 100 then
    (1, [.Usage])
  else
    let header : List (MainEffect UserEvent) :=
      [.Msg (flags.program ++ " 0.1.0"),
       .Msg "Arguments",
       .Str "Project Number" flags.projectNumber indent,
       .Str "Location" flags.location indent,
       .Str "Data Store" flags.dataStore indent,
       .Str "Branch" flags.branch indent,
       .Str "Serving Config" flags.servingConfig indent,
       .Str "Parameter Input File" flags.parameterInputFile indent,
       .Int "Number of Results" flags.numberResults indent,
       .Str "Filter String" flags.filterString indent,
       .Msg "Begin",
       .Msg "Loading Parameter Input File"]
    let recommendation := NewRecommendation flags.projectNumber flags.location flags.dataStore
      flags.branch flags.servingConfig flags.numberResults flags.filterString
    match recommendation.LoadParameters fs flags.parameterInputFile with
    | (_, some err) => (1, header ++ [.Err err "Load Parameter Input File Failed"])
    | (recommendation, none) =>
        match recommendation.ExecuteRequests services with
        | (effects, some err) =>
            (1, header ++ effects.map .Run ++ [.Err err "Recommendation Request Failed"])
        | (effects, none) => (0, header ++ effects.map .Run ++ [.Msg "End"])

/-- The flags pass the two checks at the start of `main`. -/
def Flags.valid (flags : Flags) : Bool :=
  !(flags.projectNumber == "" || flags.location == "" || flags.dataStore == "" ||
      flags.branch == "" || flags.servingConfig == "" || flags.parameterInputFile == "") &&
    !(flags.numberResults < 1 || flags.numberResults > 100)

/-- Flags with the defaults of the program and the required ones filled in. -/
def sampleFlags : Flags :=
  { program := "get-media-recommendations"
    projectNumber := "p"
    location := "global"
    dataStore := "default_data_store"
    branch := "0"
    servingConfig := "s"
    parameterInputFile := "events.json"
    numberResults := 5
    filterString := ""
    verbose := false }

/-- The response item of the scenario: title `Widget A`, score 0.87231. -/
def widgetA : RecommendationResult :=
  { Id := "item-1"
    Document := some { JsonData := "\x7b\"title\":\"Widget A\"\x7d", StructData := none }
    Metadata := [("score", some (.number (.finite "0.87231")))] }

/-- A client library whose first remote call returns `widgetA` and whose later calls
return no results. -/
def widgetServices : Services Unit :=
  { NewRecommendationClient := none
    Unmarshal := fun _ => .ok ()
    Recommend := fun i _ => if i = 0 then .ok { Results := [widgetA] } else .ok { Results := [] } }

/-- A client library whose second remote call fails. -/
def secondCallFails : Services Unit :=
  { NewRecommendationClient := none
    Unmarshal := fun _ => .ok ()
    Recommend := fun i _ =>
      if i = 1 then .error (.external "rpc error: code = Unavailable")
      else .ok { Results := [widgetA] } }

/-- A client library that rejects every user event that is not a JSON object. -/
def objectsOnly : Services Unit :=
  { NewRecommendationClient := none
    Unmarshal := fun raw =>
      match raw with
      | .object _ => .ok ()
      | _ => .error (.protojson "unexpected token")
    Recommend := fun _ _ => .ok { Results := [] } }

/-- The configuration of the scenario with two user events loaded. -/
def widgetRun : Recommendation :=
  { NewRecommendation "p" "global" "d" "0" "s" 5 "" with UserEvents := [.map [], .map []] }

/-- The float64 that a number literal denotes, as `mant * 2 ^ exp`: the float64
nearest to the decimal value of the literal. -/
def float64Of (lit : String) : Nat × Int :=
  if 0 ≤ (decimalOf lit).2 then
    nearestFloat64 ((decimalOf lit).1 * 10 ^ (decimalOf lit).2.toNat) 1
  else nearestFloat64 (decimalOf lit).1 (10 ^ (-(decimalOf lit).2).toNat)

/-- The effects of the passes of the outer loop over the given events, one block
per event, the first event being at index `i`. -/
def passesFrom {UserEvent : Type} (services : Services UserEvent)
    (recommendation : Recommendation) (servingConfig : String) :
    Nat → List GoValue → List (List (Effect UserEvent))
  | _, [] => []
  | i, userEvent :: rest =>
      (onePass services recommendation servingConfig i userEvent).1 ::
        passesFrom services recommendation servingConfig (i + 1) rest

/-- The blocks are in the order of a run: the first block is the announcement with
number `i + 1`, the line of the parameters and then nothing, or one remote call
followed by result records only; the next blocks follow with the next numbers. -/
def orderedFrom {UserEvent : Type} : Nat → List (List (Effect UserEvent)) → Prop
  | _, [] => True
  | i, block :: blocks =>
      (∃ raw tail, block = announcement (i + 1) :: parametersLine raw :: tail ∧
        (tail = [] ∨ ∃ (request : RecommendRequest UserEvent) (records : List Encoded),
          tail = .Recommend request :: records.map resultsLine)) ∧
      orderedFrom (i + 1) blocks

/-- The message `GetDocumentRequest`. -/
structure discoveryenginepb.GetDocumentRequest where
  Name : String

/-- The Discovery Engine document client. -/
structure DocumentServices where
  /-- The error of `discoveryengine.NewDocumentClient`, if any. -/
  NewDocumentClient : Option Error
  /-- The call `client.GetDocument`: the `*Document` returned, or the error. -/
  GetDocument : GetDocumentRequest → Except Error (Option Document)

/-- The requests passed to `client.GetDocument`, in order, and what is returned: the
title (the pointer returned is never nil without an error) or the error. -/
def Recommendation.GetDocumentTitle (services : DocumentServices)
    (recommendation : Recommendation) (id : String) :
    List GetDocumentRequest × Except Error String :=
  match services.NewDocumentClient with
  | some err =>
      ([], .error (Errorf "Failed to establish a Discovery Engine Document Client: %w" err))
  | none =>
      let request : GetDocumentRequest :=
        { Name := "projects/" ++ recommendation.Project ++ "/locations/" ++
            recommendation.Location ++ "/dataStores/" ++ recommendation.DataStore ++
            "/branches/" ++ recommendation.Branch ++ "/documents/" ++ id }
      match services.GetDocument request with
      | .error err => ([request], .error (Errorf "Document Request Failed: %w" err))
      | .ok response =>
          match recommendation.GetFields response with
          | .error err =>
              ([request], .error (Errorf "Failed to get the Document Data Fields: %w" err))
          | .ok fields => ([request], .ok (Value.GetStringValue (mapIndex fields "title")))

/-- A document client that holds the document of `widgetA` under every name. -/
def widgetDocuments : DocumentServices :=
  { NewDocumentClient := none
    GetDocument := fun _ => .ok widgetA.Document }

/-- The formats of the errors that `LoadParameters`, `ExecuteRequests` and `GetFields`
return, one for each stage. -/
def stageFormats : List String :=
  ["Reading the Parameter Input File Failed: %w",
   "Parsing the Parameter Input File Failed: %w",
   "Failed to establish a Discovery Engine Recommendation Client: %w",
   "Encoding the User Event as JSON Failed: %w",
   "Encoding the User Event as Protobuf Failed: %w",
   "Recommendation Request Failed: %w",
   "Failed to get the Document Data Fields: %w",
   "Failed to Unmarshal the Document JSON Data: %w"]

/-- The name of the document with identifier `id` that `GetDocumentTitle` formats. -/
def documentNameOf (recommendation : Recommendation) (id : String) : String :=
  "projects/" ++ recommendation.Project ++ "/locations/" ++ recommendation.Location ++
    "/dataStores/" ++ recommendation.DataStore ++ "/branches/" ++ recommendation.Branch ++
    "/documents/" ++ id

/-- The six required flags are all non-empty: the first check of `main` passes. -/
def Flags.required (flags : Flags) : Bool :=
  !(flags.projectNumber == "" || flags.location == "" || flags.dataStore == "" ||
      flags.branch == "" || flags.servingConfig == "" || flags.parameterInputFile == "")

/-- The call `protojson.Unmarshal(b, m)` for a message `m` that is not one of the
well-known types, as the `UserEvent` message is: `unmarshalMessage` reads the first
token and returns its unexpected-token error unless the token opens an object; the
decoding of the members of the object into the fields of the message is
`decodeMessage`. The text of the error is abridged. -/
def protojsonUnmarshal {UserEvent : Type}
    (decodeMessage : List (String × Encoded) → Except Error UserEvent) :
    Encoded → Except Error UserEvent
  | .object members => decodeMessage members
  | _ => .error (.protojson "unexpected token")

/-- The client library with `protojson.Unmarshal` as the conversion to the wire
schema: the constructor of the client, the decoding of the fields of the message and
the remote call are its parameters. -/
def protojsonServices {UserEvent : Type} (client : Option Error)
    (decodeMessage : List (String × Encoded) → Except Error UserEvent)
    (recommend : Nat → RecommendRequest UserEvent → Except Error RecommendResponse) :
    Services UserEvent :=
  { NewRecommendationClient := client
    Unmarshal := protojsonUnmarshal decodeMessage
    Recommend := recommend }

/-- A response item with no `score` entry whose document holds a JSON text that does
not decode. -/
def unreadableItem : RecommendationResult :=
  { Id := "item-2"
    Document := some { JsonData := "\x7b", StructData := none }
    Metadata := [] }

/-- A client library whose remote calls all return `unreadableItem`. -/
def unreadableServices : Services Unit :=
  { NewRecommendationClient := none
    Unmarshal := fun _ => .ok ()
    Recommend := fun _ _ => .ok { Results := [unreadableItem] } }

/-! ## Properties of the decoders -/

mutual
theorem valueInterface_inRange : ∀ j : JSON, numbersInRange j = true →
    (valueInterface j).2 = none
  | .null, _ => rfl
  | .bool _, _ => rfl
  | .string _, _ => rfl
  | .number lit, h => by
      simp only [numbersInRange, Bool.not_eq_true'] at h
      simp [valueInterface, convertNumber, h]
  | .array elems, h => by
      simp only [numbersInRange] at h
      simp [valueInterface, arrayInterface_inRange elems h]
  | .object members, h => by
      simp only [numbersInRange] at h
      simp [valueInterface, objectInterface_inRange [] members h]
theorem arrayInterface_inRange : ∀ elems : List JSON, numbersInRangeList elems = true →
    (arrayInterface elems).2 = none
  | [], _ => rfl
  | x :: xs, h => by
      simp only [numbersInRangeList, Bool.and_eq_true] at h
      simp [arrayInterface, saveError, valueInterface_inRange x h.1,
        arrayInterface_inRange xs h.2]
theorem objectInterface_inRange : ∀ (m : List (String × GoValue))
    (members : List (String × JSON)), numbersInRangeMembers members = true →
    (objectInterface m members).2 = none
  | _, [], _ => rfl
  | m, (key, x) :: members, h => by
      simp only [numbersInRangeMembers, Bool.and_eq_true] at h
      simp [objectInterface, saveError, valueInterface_inRange x h.1,
        objectInterface_inRange _ members h.2]
end

theorem elementStore_inRange (old : GoValue) (j : JSON) (h : numbersInRange j = true) :
    elementStore old j = ((valueInterface j).1, none) := by
  cases j with
  | number lit =>
      simp only [numbersInRange, Bool.not_eq_true'] at h
      simp [elementStore, valueInterface, convertNumber, h]
  | null => rfl
  | bool b => rfl
  | string raw => rfl
  | array elems =>
      have := valueInterface_inRange (.array elems) h
      simp only [elementStore]
      rw [← this]
  | object members =>
      have := valueInterface_inRange (.object members) h
      simp only [elementStore]
      rw [← this]

theorem arrayStore_inRange : ∀ (v : List GoValue) (elems : List JSON),
    numbersInRangeList elems = true →
    arrayStore v elems = (elems.map (fun e => (valueInterface e).1), none)
  | [], [], _ => rfl
  | _ :: _, [], _ => rfl
  | [], x :: xs, h => by
      simp only [numbersInRangeList, Bool.and_eq_true] at h
      simp [arrayStore, elementStore_inRange .nil x h.1, arrayStore_inRange [] xs h.2, saveError]
  | old :: olds, x :: xs, h => by
      simp only [numbersInRangeList, Bool.and_eq_true] at h
      simp [arrayStore, elementStore_inRange old x h.1, arrayStore_inRange olds xs h.2,
        saveError]

theorem numbersInRangeList_iff (elems : List JSON) :
    numbersInRangeList elems = true ↔ ∀ e ∈ elems, numbersInRange e = true := by
  induction elems with
  | nil => simp [numbersInRangeList]
  | cons x xs ih => simp [numbersInRangeList, ih]

/-! ## Properties of the requests of a run -/

theorem requestsOf_append {UserEvent : Type} (a b : List (Effect UserEvent)) :
    requestsOf (a ++ b) = requestsOf a ++ requestsOf b := by
  induction a with
  | nil => rfl
  | cons e rest ih => cases e <;> simp [requestsOf, ih]

theorem requestsOf_resultsLoop {UserEvent : Type} (recommendation : Recommendation)
    (results : List RecommendationResult) :
    requestsOf (@resultsLoop UserEvent recommendation results).1 = [] := by
  induction results with
  | nil => rfl
  | cons result rest ih =>
      simp only [resultsLoop]
      split
      · rfl
      · split
        · rfl
        · simpa [requestsOf] using ih

/-- Every request of the outer loop carries the serving config, page size and
filter of the run and the four fixed options. -/
theorem requestsOf_eventsLoop {UserEvent : Type} (services : Services UserEvent)
    (recommendation : Recommendation) (servingConfig : String) (userEvents : List GoValue) :
    ∀ (i : Nat), ∀ request ∈ requestsOf
        (eventsLoop services recommendation servingConfig i userEvents).1,
      request.ServingConfig = servingConfig ∧ request.PageSize = recommendation.PageSize ∧
      request.Filter = recommendation.Filter ∧ request.ValidateOnly = false ∧
      request.Params =
        [("disableFallback", some (NewBoolValue true)),
         ("strictFiltering", some (NewBoolValue true)),
         ("returnDocument", some (NewBoolValue true)),
         ("returnScore", some (NewBoolValue true))] := by
  induction userEvents with
  | nil => intro i request h; simp [eventsLoop, requestsOf] at h
  | cons userEvent rest ih =>
      intro i request h
      simp only [eventsLoop] at h
      split at h
      · simp [requestsOf] at h
      · split at h
        · simp [requestsOf] at h
        · split at h
          · simp [requestsOf] at h
            subst h
            simp [mapSet]
          · split at h
            · rename_i out err hres
              have hout := @requestsOf_resultsLoop UserEvent recommendation
                (by assumption : RecommendResponse).Results
              rw [hres] at hout
              simp [requestsOf, requestsOf_append, hout] at h
              subst h
              simp [mapSet]
            · rename_i out hres
              have hout := @requestsOf_resultsLoop UserEvent recommendation
                (by assumption : RecommendResponse).Results
              rw [hres] at hout
              simp [requestsOf_append, requestsOf, hout] at h
              rcases h with h | h
              · subst h
                simp [mapSet]
              · exact ih (i + 1) request h

/-- Every request of a run carries the page size and filter of the receiver and the
four fixed options. -/
theorem requestsOf_ExecuteRequests {UserEvent : Type} (services : Services UserEvent)
    (recommendation : Recommendation) (request : RecommendRequest UserEvent)
    (hrequest : request ∈ requestsOf (recommendation.ExecuteRequests services).1) :
    request.PageSize = recommendation.PageSize ∧ request.Filter = recommendation.Filter ∧
    request.Params =
      [("disableFallback", some (NewBoolValue true)),
       ("strictFiltering", some (NewBoolValue true)),
       ("returnDocument", some (NewBoolValue true)),
       ("returnScore", some (NewBoolValue true))] := by
  simp only [Recommendation.ExecuteRequests] at hrequest
  split at hrequest
  · simp [requestsOf] at hrequest
  · rw [show ∀ (a : Effect UserEvent) (l : List (Effect UserEvent)) (e : Option Error),
        (a :: l ++ [Effect.Close], e).1 = [a] ++ (l ++ [Effect.Close]) from
        fun _ _ _ => rfl] at hrequest
    rw [requestsOf_append, requestsOf_append] at hrequest
    simp only [requestsOf, List.nil_append, List.append_nil] at hrequest
    have h := requestsOf_eventsLoop services recommendation _ _ 0 request hrequest
    exact ⟨h.2.1, h.2.2.1, h.2.2.2.2⟩

theorem LoadParameters_config (fs : FileSystem) (recommendation : Recommendation)
    (inputFile : String) :
    (recommendation.LoadParameters fs inputFile).1.PageSize = recommendation.PageSize ∧
    (recommendation.LoadParameters fs inputFile).1.Filter = recommendation.Filter := by
  simp only [Recommendation.LoadParameters]
  cases fs.ReadFile (fs.Abs inputFile) with
  | error err => exact ⟨rfl, rfl⟩
  | ok buf =>
      simp only
      split <;> exact ⟨rfl, rfl⟩

/-! ## The claims -/

/-- C1: for a document with a non-empty JSON text that decodes and a structured
payload set as well, GetFields returns exactly the mapping decoded from the text, and
the result is the same whatever the structured payload is. -/
theorem C1_text_form_wins (recommendation : Recommendation) (doc : Document) (sd : Struct)
    (hjd : doc.JsonData ≠ "") (_hsd : doc.StructData = some sd)
    (hparse : (UnmarshalFields doc.JsonData []).2 = none) :
    recommendation.GetFields (some doc) = .ok (UnmarshalFields doc.JsonData []).1 ∧
    ∀ other : Option Struct,
      recommendation.GetFields (some { doc with StructData := other }) =
        recommendation.GetFields (some doc) := by
  have hne : (doc.JsonData != "") = true := by simpa using hjd
  constructor
  · simp only [Recommendation.GetFields, Document.GetJsonData, hne, if_true]
    generalize UnmarshalFields doc.JsonData [] = r at hparse
    obtain ⟨fields, err⟩ := r
    simp only at hparse
    subst hparse
    rfl
  · intro other
    simp only [Recommendation.GetFields, Document.GetJsonData, hne, if_true]

theorem C1_text_form_wins_witness :
    (Document.mk "\x7b\"title\":\"A\"\x7d" (some ⟨[("title", some (.string "B"))]⟩)).JsonData ≠ "" ∧
    (NewRecommendation "p" "global" "d" "0" "s" 5 "").GetFields
        (some (Document.mk "\x7b\"title\":\"A\"\x7d" (some ⟨[("title", some (.string "B"))]⟩))) =
      .ok [("title", some (.string "A"))] :=
  ⟨by decide,
    (C1_text_form_wins (NewRecommendation "p" "global" "d" "0" "s" 5 "")
      (Document.mk "\x7b\"title\":\"A\"\x7d" (some ⟨[("title", some (.string "B"))]⟩))
      ⟨[("title", some (.string "B"))]⟩ (by decide) rfl (by decide)).1⟩

/-- C2: for a document whose JSON text is non-empty and is not valid JSON, GetFields
returns an error and no mapping, whether or not a structured payload is set. -/
theorem C2_malformed_text_fails (recommendation : Recommendation) (doc : Document)
    (hjd : doc.JsonData ≠ "") (hbad : parse doc.JsonData = none) :
    recommendation.GetFields (some doc) =
      .error (Errorf "Failed to Unmarshal the Document JSON Data: %w" .syntaxError) := by
  have hne : (doc.JsonData != "") = true := by simpa using hjd
  simp [Recommendation.GetFields, Document.GetJsonData, hne, UnmarshalFields, hbad]

theorem C2_malformed_text_fails_witness :
    (Document.mk "\x7b\"title\":" (some ⟨[("title", some (.string "B"))]⟩)).JsonData ≠ "" ∧
    parse "\x7b\"title\":" = none ∧
    (NewRecommendation "p" "global" "d" "0" "s" 5 "").GetFields
        (some (Document.mk "\x7b\"title\":" (some ⟨[("title", some (.string "B"))]⟩))) =
      .error (Errorf "Failed to Unmarshal the Document JSON Data: %w" .syntaxError) :=
  ⟨by decide, rfl,
    C2_malformed_text_fails (NewRecommendation "p" "global" "d" "0" "s" 5 "")
      (Document.mk "\x7b\"title\":" (some ⟨[("title", some (.string "B"))]⟩)) (by decide) rfl⟩

/-- C3: for a nil document, and for a document with neither payload set, GetFields
returns the empty mapping and no error. -/
theorem C3_no_payload_is_empty (recommendation : Recommendation) :
    recommendation.GetFields none = .ok [] ∧
    recommendation.GetFields (some (Document.mk "" none)) = .ok [] :=
  ⟨rfl, rfl⟩

/-- C4: for a document whose JSON text is absent or empty and whose structured
payload is set, GetFields returns the field mapping of the structured payload itself
and no error. -/
theorem C4_struct_returned_unmodified (recommendation : Recommendation) (sd : Struct) :
    recommendation.GetFields (some (Document.mk "" (some sd))) = .ok sd.Fields :=
  rfl

/-- C5 (as stated, refuted): the JSON text `null` is non-empty and is not a JSON
object, yet GetFields returns the empty mapping and no error. -/
theorem C5_null_text_counterexample :
    (Document.mk "null" none).JsonData ≠ "" ∧ parse "null" = some .null ∧
    (NewRecommendation "p" "global" "d" "0" "s" 5 "").GetFields
      (some (Document.mk "null" none)) = .ok [] :=
  ⟨by decide, rfl, rfl⟩

/-- C5 (amended): for a document whose non-empty JSON text is not valid JSON, or is
valid JSON whose top-level value is an array, a string, a number or a boolean,
GetFields returns an error rather than a mapping; for a text whose value is `null` it
returns the empty mapping and no error. -/
theorem C5_non_object_text (recommendation : Recommendation) (doc : Document)
    (hjd : doc.JsonData ≠ "")
    (hobj : ∀ members, parse doc.JsonData ≠ some (.object members)) :
    (parse doc.JsonData ≠ some .null →
      ∃ err, recommendation.GetFields (some doc) = .error err) ∧
    (parse doc.JsonData = some .null → recommendation.GetFields (some doc) = .ok []) := by
  have hne : (doc.JsonData != "") = true := by simpa using hjd
  simp only [Recommendation.GetFields, Document.GetJsonData, hne, if_true, UnmarshalFields]
  cases hp : parse doc.JsonData with
  | none => simp
  | some j =>
      cases j with
      | object members => exact absurd hp (hobj members)
      | null => simp
      | bool b => simp
      | number lit => simp
      | string raw => simp
      | array elems => simp

theorem C5_non_object_text_witness :
    (Document.mk "[1]" none).JsonData ≠ "" ∧
    ∃ err, (NewRecommendation "p" "global" "d" "0" "s" 5 "").GetFields
      (some (Document.mk "[1]" none)) = .error err :=
  ⟨by decide,
    (C5_non_object_text (NewRecommendation "p" "global" "d" "0" "s" 5 "")
      (Document.mk "[1]" none) (by decide)
      (fun members h => by
        have h2 : parse "[1]" = some (.array [.number "1"]) := rfl
        rw [show (Document.mk "[1]" none).JsonData = "[1]" from rfl, h2] at h
        cases h)).1
      (fun h => by
        have h2 : parse "[1]" = some (.array [.number "1"]) := rfl
        rw [show (Document.mk "[1]" none).JsonData = "[1]" from rfl, h2] at h
        cases h)⟩

/-- C6 (as stated, refuted): the file contents are a valid JSON array of one object,
yet LoadParameters returns an error, because the number `1e999` is outside the
float64 range. -/
theorem C6_number_out_of_range_counterexample :
    parse "[\x7b\"a\":1e999\x7d]" = some (.array [.object [("a", .number "1e999")]]) ∧
    ((NewRecommendation "p" "global" "d" "0" "s" 5 "").LoadParameters
        (fileWith "[\x7b\"a\":1e999\x7d]") "events.json").2 =
      some (Errorf "Parsing the Parameter Input File Failed: %w"
        (.unmarshalTypeError "number 1e999" "float64")) :=
  ⟨rfl, by decide!⟩

/-- C6 (amended): for every file whose contents are a valid JSON array of N objects
in which no number literal is outside the float64 range, LoadParameters succeeds and
leaves UserEvents as a sequence of exactly N records, the i-th record being the
decoding of the i-th array element. -/
theorem C6_array_loads_in_order (fs : FileSystem) (recommendation : Recommendation)
    (inputFile : String) (buf : String) (elems : List JSON)
    (hread : fs.ReadFile (fs.Abs inputFile) = .ok buf)
    (hparse : parse buf = some (.array elems))
    (_hobj : ∀ e ∈ elems, e.isObject = true)
    (hrange : ∀ e ∈ elems, numbersInRange e = true) :
    (recommendation.LoadParameters fs inputFile).2 = none ∧
    (recommendation.LoadParameters fs inputFile).1.UserEvents.length = elems.length ∧
    (recommendation.LoadParameters fs inputFile).1.UserEvents =
      elems.map (fun e => (valueInterface e).1) := by
  have hstore := arrayStore_inRange recommendation.UserEvents elems
    ((numbersInRangeList_iff elems).2 hrange)
  simp [Recommendation.LoadParameters, hread, UnmarshalSlice, hparse, hstore]

theorem C6_array_loads_in_order_witness :
    ((NewRecommendation "p" "global" "d" "0" "s" 5 "").LoadParameters
        (fileWith "[\x7b\"a\":1\x7d, \x7b\x7d]") "events.json").2 = none ∧
    ((NewRecommendation "p" "global" "d" "0" "s" 5 "").LoadParameters
        (fileWith "[\x7b\"a\":1\x7d, \x7b\x7d]")
        "events.json").1.UserEvents.length = 2 :=
  have h := C6_array_loads_in_order (fileWith "[\x7b\"a\":1\x7d, \x7b\x7d]")
    (NewRecommendation "p" "global" "d" "0" "s" 5 "") "events.json"
    "[\x7b\"a\":1\x7d, \x7b\x7d]" [.object [("a", .number "1")], .object []] rfl rfl
    (by decide) (by decide!)
  ⟨h.1, h.2.1⟩

/-- C7: for every file whose contents are not valid JSON, LoadParameters returns an
error and leaves the receiver, UserEvents included, as it was before the call. -/
theorem C7_malformed_file_is_atomic (fs : FileSystem) (recommendation : Recommendation)
    (inputFile : String) (buf : String)
    (hread : fs.ReadFile (fs.Abs inputFile) = .ok buf) (hbad : parse buf = none) :
    (recommendation.LoadParameters fs inputFile).2 =
      some (Errorf "Parsing the Parameter Input File Failed: %w" .syntaxError) ∧
    (recommendation.LoadParameters fs inputFile).1 = recommendation := by
  simp [Recommendation.LoadParameters, hread, UnmarshalSlice, hbad]

theorem C7_malformed_file_is_atomic_witness :
    parse "[\x7b\"a\":1\x7d, \x7b\"b\":" = none ∧
    (({ NewRecommendation "p" "global" "d" "0" "s" 5 "" with
          UserEvents := [.bool true] }).LoadParameters
        (fileWith "[\x7b\"a\":1\x7d, \x7b\"b\":")
        "events.json").1.UserEvents.length = 1 :=
  ⟨rfl, by
    rw [(C7_malformed_file_is_atomic (fileWith "[\x7b\"a\":1\x7d, \x7b\"b\":")
      { NewRecommendation "p" "global" "d" "0" "s" 5 "" with UserEvents := [.bool true] }
      "events.json" "[\x7b\"a\":1\x7d, \x7b\"b\":" rfl rfl).2]
    rfl⟩

/-- C8 (as stated, refuted): the file contents `null` are well-formed JSON that is
not an array, yet LoadParameters returns no error; it leaves UserEvents empty. -/
theorem C8_null_file_counterexample :
    parse "null" = some .null ∧
    (({ NewRecommendation "p" "global" "d" "0" "s" 5 "" with
          UserEvents := [.bool true] }).LoadParameters
        (fileWith "null") "events.json").2 = none ∧
    (({ NewRecommendation "p" "global" "d" "0" "s" 5 "" with
          UserEvents := [.bool true] }).LoadParameters
        (fileWith "null") "events.json").1.UserEvents.length = 0 :=
  ⟨rfl, by decide, by decide⟩

/-- C8 (amended): LoadParameters returns an error whenever the file cannot be read,
and whenever its contents are well-formed JSON whose top-level value is an object, a
string, a number or a boolean, leaving UserEvents as it was; when the top-level value
is `null` it returns no error and leaves UserEvents empty. -/
theorem C8_unreadable_or_not_array (fs : FileSystem) (recommendation : Recommendation)
    (inputFile : String) :
    (∀ err, fs.ReadFile (fs.Abs inputFile) = .error err →
      (recommendation.LoadParameters fs inputFile).2 =
        some (Errorf "Reading the Parameter Input File Failed: %w" err)) ∧
    (∀ buf j, fs.ReadFile (fs.Abs inputFile) = .ok buf → parse buf = some j →
      (∀ elems, j ≠ .array elems) → j ≠ .null →
      (∃ err, (recommendation.LoadParameters fs inputFile).2 = some err) ∧
      (recommendation.LoadParameters fs inputFile).1 = recommendation) ∧
    (∀ buf, fs.ReadFile (fs.Abs inputFile) = .ok buf → parse buf = some .null →
      (recommendation.LoadParameters fs inputFile).2 = none ∧
      (recommendation.LoadParameters fs inputFile).1.UserEvents = []) := by
  refine ⟨?_, ?_, ?_⟩
  · intro err hread
    simp [Recommendation.LoadParameters, hread]
  · intro buf j hread hparse harr hnull
    cases j with
    | array elems => exact absurd rfl (harr elems)
    | null => exact absurd rfl hnull
    | bool b => simp [Recommendation.LoadParameters, hread, UnmarshalSlice, hparse]
    | number lit => simp [Recommendation.LoadParameters, hread, UnmarshalSlice, hparse]
    | string raw => simp [Recommendation.LoadParameters, hread, UnmarshalSlice, hparse]
    | object members => simp [Recommendation.LoadParameters, hread, UnmarshalSlice, hparse]
  · intro buf hread hparse
    simp [Recommendation.LoadParameters, hread, UnmarshalSlice, hparse]

theorem C8_unreadable_or_not_array_witness :
    ((NewRecommendation "p" "global" "d" "0" "s" 5 "").LoadParameters
        ⟨fun path => path, fun _ => .error (.external "open events.json: no such file")⟩
        "events.json").2 =
      some (Errorf "Reading the Parameter Input File Failed: %w"
        (.external "open events.json: no such file")) ∧
    (∃ err, ((NewRecommendation "p" "global" "d" "0" "s" 5 "").LoadParameters
        (fileWith "\x7b\"eventType\":\"view\"\x7d")
        "events.json").2 = some err) :=
  ⟨(C8_unreadable_or_not_array
      ⟨fun path => path, fun _ => .error (.external "open events.json: no such file")⟩
      (NewRecommendation "p" "global" "d" "0" "s" 5 "") "events.json").1 _ rfl,
   ((C8_unreadable_or_not_array
      (fileWith "\x7b\"eventType\":\"view\"\x7d")
      (NewRecommendation "p" "global" "d" "0" "s" 5 "") "events.json").2.1
      "\x7b\"eventType\":\"view\"\x7d" (.object [("eventType", .string "view")]) rfl rfl
      (fun _ h => by cases h) (fun h => by cases h)).1⟩

/-- C9: every request that ExecuteRequests passes to the remote call, for every
configuration, every list of user events and every behaviour of the collaborators,
has the options disableFallback, strictFiltering, returnDocument and returnScore set
to the boolean true, and no other option. -/
theorem C9_fixed_options_true {UserEvent : Type} (services : Services UserEvent)
    (recommendation : Recommendation) (request : RecommendRequest UserEvent)
    (hrequest : request ∈ requestsOf (recommendation.ExecuteRequests services).1) :
    mapIndex request.Params "disableFallback" = some (.bool true) ∧
    mapIndex request.Params "strictFiltering" = some (.bool true) ∧
    mapIndex request.Params "returnDocument" = some (.bool true) ∧
    mapIndex request.Params "returnScore" = some (.bool true) ∧
    request.Params.length = 4 := by
  rw [(requestsOf_ExecuteRequests services recommendation request hrequest).2.2]
  exact ⟨rfl, rfl, rfl, rfl, rfl⟩

theorem C9_fixed_options_true_witness :
    sampleRequest 5 "" ∈ requestsOf
      (({ NewRecommendation "p" "global" "d" "0" "s" 5 "" with
          UserEvents := [.map [("eventType", .string "view")]] }).ExecuteRequests
        quietServices).1 ∧
    mapIndex (sampleRequest 5 "").Params "disableFallback" = some (.bool true) ∧
    mapIndex (sampleRequest 5 "").Params "strictFiltering" = some (.bool true) ∧
    mapIndex (sampleRequest 5 "").Params "returnDocument" = some (.bool true) ∧
    mapIndex (sampleRequest 5 "").Params "returnScore" = some (.bool true) ∧
    (sampleRequest 5 "").Params.length = 4 :=
  ⟨List.Mem.head _,
    C9_fixed_options_true quietServices
      { NewRecommendation "p" "global" "d" "0" "s" 5 "" with
        UserEvents := [.map [("eventType", .string "view")]] }
      (sampleRequest 5 "") (List.Mem.head _)⟩

/-- C10: for every filter string and every result count n with 1 <= n <= 100 passed
to NewRecommendation, every request that ExecuteRequests passes to the remote call,
after LoadParameters has loaded any file, carries page size exactly n and filter
exactly that string. -/
theorem C10_page_size_and_filter {UserEvent : Type} (services : Services UserEvent)
    (fs : FileSystem) (project location dataStore branch servingConfig : String)
    (numberResults : Int) (filter inputFile : String)
    (hlow : 1 ≤ numberResults) (hhigh : numberResults ≤ 100)
    (request : RecommendRequest UserEvent)
    (hrequest : request ∈ requestsOf
      (((NewRecommendation project location dataStore branch servingConfig numberResults
        filter).LoadParameters fs inputFile).1.ExecuteRequests services).1) :
    request.PageSize = numberResults ∧ request.Filter = filter := by
  have h := requestsOf_ExecuteRequests services _ request hrequest
  have hc := LoadParameters_config fs
    (NewRecommendation project location dataStore branch servingConfig numberResults filter)
    inputFile
  rw [h.1, h.2.1, hc.1, hc.2]
  refine ⟨?_, rfl⟩
  simp only [NewRecommendation, int32]
  omega

theorem C10_page_size_and_filter_witness :
    sampleRequest 7 "genre: ANY(\"x\")" ∈ requestsOf
      (((NewRecommendation "p" "global" "d" "0" "s" 7 "genre: ANY(\"x\")").LoadParameters
          (fileWith "[\x7b\"eventType\":\"view\"\x7d]") "events.json").1.ExecuteRequests
        quietServices).1 ∧
    (sampleRequest 7 "genre: ANY(\"x\")").PageSize = 7 ∧
    (sampleRequest 7 "genre: ANY(\"x\")").Filter = "genre: ANY(\"x\")" :=
  ⟨List.Mem.head _,
    C10_page_size_and_filter quietServices (fileWith "[\x7b\"eventType\":\"view\"\x7d]")
      "p" "global" "d" "0" "s" 7 "genre: ANY(\"x\")" "events.json" (by decide) (by decide)
      (sampleRequest 7 "genre: ANY(\"x\")") (List.Mem.head _)⟩

/-! ## The structure of a run -/

theorem ExecuteRequests_established {UserEvent : Type} (services : Services UserEvent)
    (recommendation : Recommendation) (hclient : services.NewRecommendationClient = none) :
    recommendation.ExecuteRequests services =
      (establishing ::
          (eventsLoop services recommendation (servingConfigOf recommendation) 0
            recommendation.UserEvents).1 ++ [.Close],
        (eventsLoop services recommendation (servingConfigOf recommendation) 0
          recommendation.UserEvents).2) := by
  simp only [Recommendation.ExecuteRequests, hclient]
  rfl

theorem MarshalResults_ok (results : Results) : ∃ raw, MarshalResults results = .ok raw :=
  ⟨_, rfl⟩

/-- The inner loop logs nothing but result records. -/
theorem resultsLoop_lines {UserEvent : Type} (recommendation : Recommendation)
    (results : List RecommendationResult) :
    (@resultsLoop UserEvent recommendation results).1 =
      (recordsOf (@resultsLoop UserEvent recommendation results).1).map resultsLine := by
  induction results with
  | nil => rfl
  | cons result rest ih =>
      simp only [resultsLoop]
      split
      · rfl
      · split
        · rfl
        · simp only [recordsOf, beq_self_eq_true, if_true, List.map_cons]
          rw [← ih]
          rfl

/-- The inner loop returns no error exactly when the fields of every document are
extracted. -/
theorem resultsLoop_ok_iff {UserEvent : Type} (recommendation : Recommendation)
    (results : List RecommendationResult) :
    (@resultsLoop UserEvent recommendation results).2 = none ↔
      ∀ result ∈ results, ∃ fields, recommendation.GetFields result.Document = .ok fields := by
  induction results with
  | nil => simp [resultsLoop]
  | cons result rest ih =>
      simp only [resultsLoop, List.mem_cons, forall_eq_or_imp]
      cases hf : recommendation.GetFields result.Document with
      | error err => simp
      | ok fields =>
          simp only [MarshalResults]
          simpa using ih

/-- When the inner loop returns no error its records are the records of the items,
one for each, in order. -/
theorem resultsLoop_records {UserEvent : Type} (recommendation : Recommendation)
    (results : List RecommendationResult)
    (hok : (@resultsLoop UserEvent recommendation results).2 = none) :
    (recordsOf (@resultsLoop UserEvent recommendation results).1).map Except.ok =
      results.map (recordOf recommendation) := by
  induction results with
  | nil => rfl
  | cons result rest ih =>
      simp only [resultsLoop] at hok ⊢
      cases hf : recommendation.GetFields result.Document with
      | error err => simp [hf] at hok
      | ok fields =>
          simp only [hf, MarshalResults] at hok ⊢
          simp only [recordsOf, beq_self_eq_true, if_true, List.map_cons, ih hok]
          simp [recordOf, hf, MarshalResults, resultsFor]

theorem onePass_marshal_error {UserEvent : Type} (services : Services UserEvent)
    (recommendation : Recommendation) (servingConfig : String) (i : Nat) (userEvent : GoValue)
    (err : Error) (hraw : Marshal userEvent = .error err) :
    onePass services recommendation servingConfig i userEvent =
      ([], some (Errorf "Encoding the User Event as JSON Failed: %w" err)) := by
  simp [onePass, eventsLoop, hraw]

theorem onePass_unmarshal_error {UserEvent : Type} (services : Services UserEvent)
    (recommendation : Recommendation) (servingConfig : String) (i : Nat) (userEvent : GoValue)
    (raw : Encoded) (err : Error) (hraw : Marshal userEvent = .ok raw)
    (hpb : services.Unmarshal raw = .error err) :
    onePass services recommendation servingConfig i userEvent =
      ([announcement (i + 1), parametersLine raw],
        some (Errorf "Encoding the User Event as Protobuf Failed: %w" err)) := by
  simp [onePass, eventsLoop, hraw, hpb, announcement, parametersLine]

theorem onePass_recommend_error {UserEvent : Type} (services : Services UserEvent)
    (recommendation : Recommendation) (servingConfig : String) (i : Nat) (userEvent : GoValue)
    (raw : Encoded) (pb : UserEvent) (err : Error) (hraw : Marshal userEvent = .ok raw)
    (hpb : services.Unmarshal raw = .ok pb)
    (hcall : services.Recommend i (requestFor recommendation servingConfig pb) = .error err) :
    onePass services recommendation servingConfig i userEvent =
      ([announcement (i + 1), parametersLine raw,
          .Recommend (requestFor recommendation servingConfig pb)],
        some (Errorf "Recommendation Request Failed: %w" err)) := by
  simp only [requestFor] at hcall
  simp [onePass, eventsLoop, hraw, hpb, hcall, announcement, parametersLine, requestFor]

theorem onePass_response {UserEvent : Type} (services : Services UserEvent)
    (recommendation : Recommendation) (servingConfig : String) (i : Nat) (userEvent : GoValue)
    (raw : Encoded) (pb : UserEvent) (response : RecommendResponse)
    (hraw : Marshal userEvent = .ok raw) (hpb : services.Unmarshal raw = .ok pb)
    (hcall : services.Recommend i (requestFor recommendation servingConfig pb) = .ok response) :
    onePass services recommendation servingConfig i userEvent =
      (announcement (i + 1) :: parametersLine raw ::
          .Recommend (requestFor recommendation servingConfig pb) ::
          (@resultsLoop UserEvent recommendation response.Results).1,
        (@resultsLoop UserEvent recommendation response.Results).2) := by
  simp only [requestFor] at hcall
  simp only [onePass, eventsLoop, hraw, hpb, hcall]
  cases hres : @resultsLoop UserEvent recommendation response.Results with
  | mk out err =>
      cases err with
      | none => simp [announcement, parametersLine, requestFor]
      | some e => simp [announcement, parametersLine, requestFor]

/-- The outer loop is its first pass followed, when the pass returns no error, by the
loop over the remaining events. -/
theorem eventsLoop_cons {UserEvent : Type} (services : Services UserEvent)
    (recommendation : Recommendation) (servingConfig : String) (i : Nat) (userEvent : GoValue)
    (rest : List GoValue) :
    eventsLoop services recommendation servingConfig i (userEvent :: rest) =
      match (onePass services recommendation servingConfig i userEvent).2 with
      | some _ => onePass services recommendation servingConfig i userEvent
      | none =>
          ((onePass services recommendation servingConfig i userEvent).1 ++
              (eventsLoop services recommendation servingConfig (i + 1) rest).1,
            (eventsLoop services recommendation servingConfig (i + 1) rest).2) := by
  cases hraw : Marshal userEvent with
  | error err =>
      rw [onePass_marshal_error services recommendation servingConfig i userEvent err hraw]
      simp [eventsLoop, hraw]
  | ok raw =>
      cases hpb : services.Unmarshal raw with
      | error err =>
          rw [onePass_unmarshal_error services recommendation servingConfig i userEvent raw err
            hraw hpb]
          simp [eventsLoop, hraw, hpb, announcement, parametersLine]
      | ok pb =>
          cases hcall : services.Recommend i (requestFor recommendation servingConfig pb) with
          | error err =>
              rw [onePass_recommend_error services recommendation servingConfig i userEvent raw pb
                err hraw hpb hcall]
              simp only [requestFor] at hcall
              simp [eventsLoop, hraw, hpb, hcall, announcement, parametersLine, requestFor]
          | ok response =>
              rw [onePass_response services recommendation servingConfig i userEvent raw pb
                response hraw hpb hcall]
              simp only [requestFor] at hcall
              simp only [eventsLoop, hraw, hpb, hcall]
              cases hres : @resultsLoop UserEvent recommendation response.Results with
              | mk out err =>
                  cases err with
                  | none => simp [announcement, parametersLine, requestFor]
                  | some e => simp [announcement, parametersLine, requestFor]

/-- A loop that returns no error over the first events goes on with the remaining
ones, at the index that follows. -/
theorem eventsLoop_append {UserEvent : Type} (services : Services UserEvent)
    (recommendation : Recommendation) (servingConfig : String) (done rest : List GoValue) :
    ∀ i : Nat, (eventsLoop services recommendation servingConfig i done).2 = none →
      eventsLoop services recommendation servingConfig i (done ++ rest) =
        ((eventsLoop services recommendation servingConfig i done).1 ++
            (eventsLoop services recommendation servingConfig (i + done.length) rest).1,
          (eventsLoop services recommendation servingConfig (i + done.length) rest).2) := by
  induction done with
  | nil => intro i _; simp [eventsLoop]
  | cons userEvent done ih =>
      intro i hok
      rw [eventsLoop_cons] at hok
      rw [List.cons_append, eventsLoop_cons, eventsLoop_cons services recommendation
        servingConfig i userEvent done]
      cases hp : (onePass services recommendation servingConfig i userEvent).2 with
      | some err =>
          rw [hp] at hok
          simp only at hok
          rw [hp] at hok
          cases hok
      | none =>
          rw [hp] at hok
          simp only at hok ⊢
          rw [ih (i + 1) hok]
          simp [Nat.add_assoc, Nat.add_comm 1]

/-- A loop that returns no error has made one remote call for each event. -/
theorem eventsLoop_requests_length {UserEvent : Type} (services : Services UserEvent)
    (recommendation : Recommendation) (servingConfig : String) (userEvents : List GoValue) :
    ∀ i : Nat, (eventsLoop services recommendation servingConfig i userEvents).2 = none →
      (requestsOf (eventsLoop services recommendation servingConfig i userEvents).1).length =
        userEvents.length := by
  induction userEvents with
  | nil => intro i _; rfl
  | cons userEvent rest ih =>
      intro i hok
      rw [eventsLoop_cons] at hok ⊢
      cases hraw : Marshal userEvent with
      | error err =>
          rw [onePass_marshal_error services recommendation servingConfig i userEvent err hraw]
            at hok
          cases hok
      | ok raw =>
          cases hpb : services.Unmarshal raw with
          | error err =>
              rw [onePass_unmarshal_error services recommendation servingConfig i userEvent raw
                err hraw hpb] at hok
              cases hok
          | ok pb =>
              cases hcall :
                  services.Recommend i (requestFor recommendation servingConfig pb) with
              | error err =>
                  rw [onePass_recommend_error services recommendation servingConfig i userEvent
                    raw pb err hraw hpb hcall] at hok
                  cases hok
              | ok response =>
                  rw [onePass_response services recommendation servingConfig i userEvent raw pb
                    response hraw hpb hcall] at hok ⊢
                  cases hres : (@resultsLoop UserEvent recommendation response.Results).2 with
                  | some err => rw [hres] at hok; cases hok
                  | none =>
                      rw [hres] at hok
                      simp only at hok ⊢
                      have hout := @requestsOf_resultsLoop UserEvent recommendation
                        response.Results
                      simp [requestsOf_append, requestsOf, announcement, parametersLine, hout,
                        ih (i + 1) hok]

theorem recordsOf_append {UserEvent : Type} (a b : List (Effect UserEvent)) :
    recordsOf (a ++ b) = recordsOf a ++ recordsOf b := by
  induction a with
  | nil => rfl
  | cons e rest ih =>
      cases e with
      | Close => simpa [recordsOf] using ih
      | Recommend request => simpa [recordsOf] using ih
      | Info field msg =>
          cases field with
          | none => simpa [recordsOf] using ih
          | some f =>
              cases f with
              | Int key n => simpa [recordsOf] using ih
              | RawJSON key b =>
                  simp only [List.cons_append, recordsOf]
                  split <;> simp [ih]

theorem recordsOf_resultsLines {UserEvent : Type} (records : List Encoded) :
    recordsOf (records.map (@resultsLine UserEvent)) = records := by
  induction records with
  | nil => rfl
  | cons r rest ih => simp [recordsOf, resultsLine, ih]

/-- The four ways a pass ends: at the encoding, at the conversion, at the remote call,
or after the inner loop over the response. -/
theorem onePass_cases {UserEvent : Type} (services : Services UserEvent)
    (recommendation : Recommendation) (servingConfig : String) (i : Nat)
    (userEvent : GoValue) :
    (∃ err, Marshal userEvent = .error err ∧
      onePass services recommendation servingConfig i userEvent =
        ([], some (Errorf "Encoding the User Event as JSON Failed: %w" err))) ∨
    (∃ raw err, Marshal userEvent = .ok raw ∧ services.Unmarshal raw = .error err ∧
      onePass services recommendation servingConfig i userEvent =
        ([announcement (i + 1), parametersLine raw],
          some (Errorf "Encoding the User Event as Protobuf Failed: %w" err))) ∨
    (∃ raw pb err, Marshal userEvent = .ok raw ∧ services.Unmarshal raw = .ok pb ∧
      services.Recommend i (requestFor recommendation servingConfig pb) = .error err ∧
      onePass services recommendation servingConfig i userEvent =
        ([announcement (i + 1), parametersLine raw,
            .Recommend (requestFor recommendation servingConfig pb)],
          some (Errorf "Recommendation Request Failed: %w" err))) ∨
    (∃ raw pb response, Marshal userEvent = .ok raw ∧ services.Unmarshal raw = .ok pb ∧
      services.Recommend i (requestFor recommendation servingConfig pb) = .ok response ∧
      onePass services recommendation servingConfig i userEvent =
        (announcement (i + 1) :: parametersLine raw ::
            .Recommend (requestFor recommendation servingConfig pb) ::
            (@resultsLoop UserEvent recommendation response.Results).1,
          (@resultsLoop UserEvent recommendation response.Results).2)) := by
  cases hraw : Marshal userEvent with
  | error err =>
      exact Or.inl ⟨err, rfl, onePass_marshal_error services recommendation servingConfig i
        userEvent err hraw⟩
  | ok raw =>
      cases hpb : services.Unmarshal raw with
      | error err =>
          exact Or.inr (Or.inl ⟨raw, err, rfl, hpb, onePass_unmarshal_error services
            recommendation servingConfig i userEvent raw err hraw hpb⟩)
      | ok pb =>
          cases hcall : services.Recommend i (requestFor recommendation servingConfig pb) with
          | error err =>
              exact Or.inr (Or.inr (Or.inl ⟨raw, pb, err, rfl, hpb, hcall,
                onePass_recommend_error services recommendation servingConfig i userEvent raw
                  pb err hraw hpb hcall⟩))
          | ok response =>
              exact Or.inr (Or.inr (Or.inr ⟨raw, pb, response, rfl, hpb, hcall,
                onePass_response services recommendation servingConfig i userEvent raw pb
                  response hraw hpb hcall⟩))

/-- A pass returns no error exactly when each of its steps succeeds. -/
theorem onePass_ok_iff {UserEvent : Type} (services : Services UserEvent)
    (recommendation : Recommendation) (servingConfig : String) (i : Nat)
    (userEvent : GoValue) :
    (onePass services recommendation servingConfig i userEvent).2 = none ↔
      passSucceeds services recommendation servingConfig i userEvent := by
  unfold passSucceeds convert
  rcases onePass_cases services recommendation servingConfig i userEvent with
    ⟨err, hraw, hp⟩ | ⟨raw, err, hraw, hpb, hp⟩ | ⟨raw, pb, err, hraw, hpb, hcall, hp⟩ |
    ⟨raw, pb, response, hraw, hpb, hcall, hp⟩
  · simp [hp, hraw]
  · simp [hp, hraw, hpb]
  · simp only [hp, hraw, hpb]
    constructor
    · intro h; cases h
    · rintro ⟨pb2, response, h1, h2, _⟩
      cases h1
      rw [hcall] at h2
      cases h2
  · simp only [hp, hraw, hpb]
    rw [resultsLoop_ok_iff]
    constructor
    · intro h
      exact ⟨pb, response, rfl, hcall, h⟩
    · rintro ⟨pb2, response2, h1, h2, h3⟩
      cases h1
      rw [hcall] at h2
      cases h2
      exact h3

/-- The loop returns no error exactly when every pass succeeds. -/
theorem eventsLoop_ok_iff {UserEvent : Type} (services : Services UserEvent)
    (recommendation : Recommendation) (servingConfig : String) (userEvents : List GoValue) :
    ∀ i : Nat, (eventsLoop services recommendation servingConfig i userEvents).2 = none ↔
      ∀ (k : Nat) (hk : k < userEvents.length),
        passSucceeds services recommendation servingConfig (i + k) (userEvents.get ⟨k, hk⟩) := by
  induction userEvents with
  | nil => intro i; simp [eventsLoop]
  | cons userEvent rest ih =>
      intro i
      rw [eventsLoop_cons]
      constructor
      · intro h k hk
        cases hp : (onePass services recommendation servingConfig i userEvent).2 with
        | some err =>
            rw [hp] at h
            simp only at h
            rw [hp] at h
            cases h
        | none =>
            rw [hp] at h
            simp only at h
            cases k with
            | zero => exact (onePass_ok_iff services recommendation servingConfig i _).1 hp
            | succ k =>
                have := (ih (i + 1)).1 h k (by simpa using hk)
                simpa [Nat.add_assoc, Nat.add_comm 1] using this
      · intro h
        have h0 := (onePass_ok_iff services recommendation servingConfig i userEvent).2
          (by simpa using h 0 (by simp))
        rw [h0]
        simp only
        refine (ih (i + 1)).2 ?_
        intro k hk
        have := h (k + 1) (by simpa using hk)
        simpa [Nat.add_assoc, Nat.add_comm 1] using this

theorem requestsOf_ExecuteRequests_servingConfig {UserEvent : Type}
    (services : Services UserEvent) (recommendation : Recommendation)
    (request : RecommendRequest UserEvent)
    (hrequest : request ∈ requestsOf (recommendation.ExecuteRequests services).1) :
    request.ServingConfig = servingConfigOf recommendation := by
  cases hclient : services.NewRecommendationClient with
  | some err =>
      simp [Recommendation.ExecuteRequests, hclient, requestsOf] at hrequest
  | none =>
      rw [ExecuteRequests_established services recommendation hclient] at hrequest
      rw [show ∀ (a : Effect UserEvent) (l : List (Effect UserEvent)) (e : Option Error),
        (a :: l ++ [Effect.Close], e).1 = [a] ++ (l ++ [Effect.Close]) from
        fun _ _ _ => rfl] at hrequest
      rw [requestsOf_append, requestsOf_append] at hrequest
      simp only [establishing, requestsOf, List.nil_append, List.append_nil] at hrequest
      exact (requestsOf_eventsLoop services recommendation _ _ 0 request hrequest).1

/-- Records that are, one by one, the records of the items: each is built from its
item and carries the identifier of the item. -/
theorem records_of_items (recommendation : Recommendation) :
    ∀ (results : List RecommendationResult) (records : List Encoded),
      records.map Except.ok = results.map (recordOf recommendation) →
      List.Forall₂
        (fun record result => ∃ fields,
          recommendation.GetFields result.Document = .ok fields ∧
          MarshalResults (resultsFor result fields) = .ok record ∧
          (resultsFor result fields).Id = result.Id)
        records results
  | [], [], _ => List.Forall₂.nil
  | [], _ :: _, h => by simp at h
  | _ :: _, [], h => by simp at h
  | result :: results, r :: rs, h => by
      simp only [List.map_cons, List.cons.injEq] at h
      refine List.Forall₂.cons ?_ (records_of_items recommendation results rs h.2)
      have h1 := h.1
      unfold recordOf at h1
      cases hf : recommendation.GetFields result.Document with
      | error err => rw [hf] at h1; cases h1
      | ok fields =>
          rw [hf] at h1
          exact ⟨fields, rfl, h1.symm, rfl⟩

/-! ## The claims on the run -/

/-- C11: the serving config of every request of a run is the string
`projects/<project>/locations/<location>/dataStores/<data store>/servingConfigs/<serving
config>` built from the four configuration fields; it is the same for every event and
for every branch identifier. -/
theorem C11_serving_config_name {UserEvent : Type} (services : Services UserEvent)
    (recommendation : Recommendation) (branch : String)
    (request : RecommendRequest UserEvent)
    (hrequest : request ∈ requestsOf
      (({ recommendation with Branch := branch }).ExecuteRequests services).1) :
    request.ServingConfig =
      "projects/" ++ recommendation.Project ++ "/locations/" ++ recommendation.Location ++
        "/dataStores/" ++ recommendation.DataStore ++ "/servingConfigs/" ++
        recommendation.ServingConfig := by
  have h := requestsOf_ExecuteRequests_servingConfig services _ request hrequest
  exact h

theorem C11_serving_config_name_witness :
    sampleRequest 5 "" ∈ requestsOf
      (({ ({ NewRecommendation "p" "global" "d" "0" "s" 5 "" with
              UserEvents := [.map [("eventType", .string "view")]] } : Recommendation) with
          Branch := "1" }).ExecuteRequests quietServices).1 ∧
    (sampleRequest 5 "").ServingConfig =
      "projects/p/locations/global/dataStores/d/servingConfigs/s" :=
  ⟨List.Mem.head _,
    C11_serving_config_name quietServices
      { NewRecommendation "p" "global" "d" "0" "s" 5 "" with
        UserEvents := [.map [("eventType", .string "view")]] }
      "1" (sampleRequest 5 "") (List.Mem.head _)⟩

/-- C12: for a response whose items all extract, the run emits, at the place of the
pass that received it, exactly one result record per response item, in the order of
the response. The record of an item is the encoding of the record built from that
item and carries its identifier: it is an object whose `id` member is the identifier
of the item as a string, the member being left out only for the empty identifier, so
the identifier read from the record is that of the item. -/
theorem C12_one_record_per_item {UserEvent : Type} (services : Services UserEvent)
    (recommendation : Recommendation) (done : List GoValue) (userEvent : GoValue)
    (rest : List GoValue) (raw : Encoded) (pb : UserEvent) (response : RecommendResponse)
    (hclient : services.NewRecommendationClient = none)
    (hevents : recommendation.UserEvents = done ++ userEvent :: rest)
    (hdone : (eventsLoop services recommendation (servingConfigOf recommendation) 0 done).2 =
      none)
    (hraw : Marshal userEvent = .ok raw) (hpb : services.Unmarshal raw = .ok pb)
    (hcall : services.Recommend done.length
      (requestFor recommendation (servingConfigOf recommendation) pb) = .ok response)
    (hextract : ∀ result ∈ response.Results,
      ∃ fields, recommendation.GetFields result.Document = .ok fields) :
    ∃ records : List Encoded,
      recordsOf (recommendation.ExecuteRequests services).1 =
        recordsOf (eventsLoop services recommendation (servingConfigOf recommendation) 0
            done).1 ++ records ++
          recordsOf (eventsLoop services recommendation (servingConfigOf recommendation)
            (done.length + 1) rest).1 ∧
      records.length = response.Results.length ∧
      List.Forall₂
        (fun record result => ∃ fields members,
          recommendation.GetFields result.Document = .ok fields ∧
          MarshalResults (resultsFor result fields) = .ok record ∧
          (resultsFor result fields).Id = result.Id ∧
          record = .object members ∧
          mapGet members "id" =
            (if result.Id = "" then none else some (.string result.Id)) ∧
          (match mapGet members "id" with
            | some (.string ident) => ident
            | _ => "") = result.Id)
        records response.Results := by
  have hres := (@resultsLoop_ok_iff UserEvent recommendation response.Results).2 hextract
  have hpass := onePass_response services recommendation (servingConfigOf recommendation)
    done.length userEvent raw pb response hraw hpb hcall
  have hitems := records_of_items recommendation response.Results _
    (resultsLoop_records recommendation response.Results hres)
  refine ⟨recordsOf (@resultsLoop UserEvent recommendation response.Results).1, ?_,
    hitems.length_eq, ?_⟩
  · rw [ExecuteRequests_established services recommendation hclient, hevents,
      eventsLoop_append services recommendation _ done (userEvent :: rest) 0 hdone,
      eventsLoop_cons, Nat.zero_add, hpass, hres]
    simp [recordsOf_append, recordsOf, establishing, announcement, parametersLine]
  · refine hitems.imp ?_
    rintro record result ⟨fields, hfields, hrecord, hid⟩
    have hmembers : ∃ members, record = Encoded.object members ∧
        mapGet members "id" =
          (if result.Id = "" then none else some (Encoded.string result.Id)) := by
      have hrecord2 := hrecord
      generalize resultsFor result fields = results at hrecord2 hid
      obtain ⟨ident, title, score⟩ := results
      simp only at hid
      subst hid
      simp only [MarshalResults, Except.ok.injEq] at hrecord2
      subst hrecord2
      refine ⟨_, rfl, ?_⟩
      simp only [List.filter]
      cases hbi : (result.Id != "") <;> cases hbt : (title != "") <;>
        cases hbs : (score != "") <;> simp_all [mapGet]
    obtain ⟨members, hobj, hmem⟩ := hmembers
    refine ⟨fields, members, hfields, hrecord, hid, hobj, hmem, ?_⟩
    rw [hmem]
    by_cases hempty : result.Id = ""
    · simp [hempty]
    · simp [hempty]

theorem C12_one_record_per_item_witness :
    recordsOf (widgetRun.ExecuteRequests widgetServices).1 =
      [.object [("id", .string "item-1"), ("title", .string "Widget A"),
        ("score", .string "0.87231")]] ∧
    ∃ (record : Encoded) (members : List (String × Encoded)),
      recordsOf (widgetRun.ExecuteRequests widgetServices).1 = [record] ∧
      record = .object members ∧ mapGet members "id" = some (.string "item-1") := by
  refine ⟨rfl, ?_⟩
  obtain ⟨records, h1, _, h2⟩ := C12_one_record_per_item widgetServices widgetRun [] (.map [])
    [.map []] (.object []) () ⟨[widgetA]⟩ rfl rfl rfl rfl rfl rfl
    (fun result h => by
      rw [List.mem_singleton] at h
      subst h
      exact ⟨_, rfl⟩)
  cases h2 with
  | cons hitem hrest =>
      cases hrest
      obtain ⟨_, members, _, _, _, hobj, hmem, _⟩ := hitem
      refine ⟨_, members, ?_, hobj, hmem⟩
      rw [h1]
      rfl

/-- C13: for a result item whose document fields are extracted, the inner loop emits
the record whose Title is the string value of the `title` entry of the extracted
mapping and goes on with the next item; the Title is the string of a string entry and
the empty string, with no error raised, when the mapping has no `title` entry. -/
theorem C13_title_from_fields {UserEvent : Type} (recommendation : Recommendation)
    (result : RecommendationResult) (rest : List RecommendationResult) (fields : Fields)
    (hfields : recommendation.GetFields result.Document = .ok fields) :
    (∃ raw, MarshalResults (resultsFor result fields) = .ok raw ∧
      @resultsLoop UserEvent recommendation (result :: rest) =
        (resultsLine raw :: (@resultsLoop UserEvent recommendation rest).1,
          (@resultsLoop UserEvent recommendation rest).2)) ∧
    (resultsFor result fields).Title = Value.GetStringValue (mapIndex fields "title") ∧
    (∀ title, mapGet fields "title" = some (some (.string title)) →
      (resultsFor result fields).Title = title) ∧
    (mapGet fields "title" = none → (resultsFor result fields).Title = "") := by
  refine ⟨⟨_, rfl, ?_⟩, rfl, ?_, ?_⟩
  · simp only [resultsLoop, hfields, MarshalResults, resultsFor, resultsLine]
  · intro title h
    simp [resultsFor, mapIndex, h, Value.GetStringValue]
  · intro h
    simp [resultsFor, mapIndex, h, Value.GetStringValue]

theorem C13_title_from_fields_witness :
    (resultsFor widgetA [("title", some (.string "Widget A"))]).Title = "Widget A" ∧
    (resultsFor { widgetA with Document := none } []).Title = "" :=
  ⟨(@C13_title_from_fields Unit widgetRun widgetA [] [("title", some (.string "Widget A"))]
      rfl).2.2.1 "Widget A" rfl,
   (@C13_title_from_fields Unit widgetRun { widgetA with Document := none } [] []
      rfl).2.2.2 rfl⟩

/-! ## The rendering of a score -/

theorem roundHalfEven_near (a b : Nat) (hb : 0 < b) :
    2 * ((roundHalfEven a b * b : Int) - a).natAbs ≤ b := by
  have hdm := Nat.div_add_mod a b
  have hlt := Nat.mod_lt a hb
  have hmul : b * (a / b) = (a / b) * b := Nat.mul_comm _ _
  simp only [roundHalfEven]
  split
  · rename_i h
    have : ((a / b * b : Nat) : Int) - a = -((a % b : Nat) : Int) := by
      have : (a : Int) = ((a / b * b : Nat) : Int) + ((a % b : Nat) : Int) := by
        rw [← hmul]; exact_mod_cast hdm.symm
      omega
    push_cast at this ⊢
    rw [this]
    omega
  · split
    · rename_i h1 h2
      have : (((a / b + 1) * b : Nat) : Int) - a = ((b - a % b : Nat) : Int) := by
        have h3 : (a : Int) = ((a / b * b : Nat) : Int) + ((a % b : Nat) : Int) := by
          rw [← hmul]; exact_mod_cast hdm.symm
        have h4 : ((a / b + 1) * b : Nat) = a / b * b + b := by ring
        rw [h4]
        push_cast at h3 ⊢
        rw [Nat.cast_sub (le_of_lt hlt)]
        omega
      push_cast at this ⊢
      rw [this]
      omega
    · rename_i h1 h2
      have heq : 2 * (a % b) = b := by omega
      split
      · have : ((a / b * b : Nat) : Int) - a = -((a % b : Nat) : Int) := by
          have : (a : Int) = ((a / b * b : Nat) : Int) + ((a % b : Nat) : Int) := by
            rw [← hmul]; exact_mod_cast hdm.symm
          omega
        push_cast at this ⊢
        rw [this]
        omega
      · have : (((a / b + 1) * b : Nat) : Int) - a = ((b - a % b : Nat) : Int) := by
          have h3 : (a : Int) = ((a / b * b : Nat) : Int) + ((a % b : Nat) : Int) := by
            rw [← hmul]; exact_mod_cast hdm.symm
          have h4 : ((a / b + 1) * b : Nat) = a / b * b + b := by ring
          rw [h4]
          push_cast at h3 ⊢
          rw [Nat.cast_sub (le_of_lt hlt)]
          omega
        push_cast at this ⊢
        rw [this]
        omega

theorem isDigit_digitChar (d : Nat) (hd : d < 10) : isDigit (Nat.digitChar d) = true := by
  interval_cases d <;> decide

theorem toDigitsCore_isDigit : ∀ (fuel n : Nat) (ds : List Char),
    (∀ c ∈ ds, isDigit c = true) → ∀ c ∈ Nat.toDigitsCore 10 fuel n ds, isDigit c = true
  | 0, _, ds, h => by simpa [Nat.toDigitsCore] using h
  | fuel + 1, n, ds, h => by
      have hd : ∀ c ∈ Nat.digitChar (n % 10) :: ds, isDigit c = true := by
        intro c hc
        rcases List.mem_cons.1 hc with rfl | hc
        · exact isDigit_digitChar _ (Nat.mod_lt _ (by decide))
        · exact h c hc
      simp only [Nat.toDigitsCore]
      split
      · exact hd
      · exact toDigitsCore_isDigit fuel (n / 10) _ hd

theorem padDigits_isDigit (width n : Nat) : ∀ c ∈ (padDigits width n).toList, isDigit c = true := by
  intro c hc
  simp only [padDigits, String.toList, List.mem_append, List.mem_replicate] at hc
  rcases hc with ⟨_, rfl⟩ | hc
  · decide
  · exact toDigitsCore_isDigit _ _ [] (by simp) c hc

theorem padDigits_length (n : Nat) (hn : n < 100000) : (padDigits 5 n).length = 5 := by
  have h := Nat.toDigitsCore_length 10 (by decide) (n + 1) n 5 (by simpa using hn) (by decide)
  simp only [padDigits, String.length, List.length_append, List.length_replicate, Nat.toDigits]
  omega

theorem padDigits_ne_empty (width n : Nat) : (padDigits width n).toList ≠ [] := by
  simp only [padDigits, String.toList, Nat.toDigits, Nat.toDigitsCore]
  split
  · simp
  · intro h
    have hlen := Nat.toDigitsCore_lens_eq 10 n (n / 10) (Nat.digitChar (n % 10)) []
    have h2 := (List.append_eq_nil.1 h).2
    rw [h2] at hlen
    simp at hlen

/-- C14: for a result item whose score is a finite number, the Score of the record is
the rendering of that score with exactly five digits after the decimal point: an
optional sign, the digits of the whole part, a point and five digits, the number
written being the exact value of the float64 times 100000 rounded to the nearest
integer (ties to even); 0.5 renders as `0.50000` and 1 as `1.00000`. -/
theorem C14_score_five_decimals (result : RecommendationResult) (fields : Fields)
    (lit : String)
    (hscore : mapIndex result.Metadata "score" = some (.number (.finite lit))) :
    (resultsFor result fields).Score = Sprintf5f (.finite lit) ∧
    (∃ scaled : Nat,
      Sprintf5f (.finite lit) =
        (if lit.toList.head? = some '-' then "-" else "") ++
          padDigits 1 (scaled / 100000) ++ "." ++ padDigits 5 (scaled % 100000) ∧
      (padDigits 5 (scaled % 100000)).length = 5 ∧
      (padDigits 1 (scaled / 100000)).toList ≠ [] ∧
      (∀ c ∈ (padDigits 1 (scaled / 100000)).toList ++
          (padDigits 5 (scaled % 100000)).toList, isDigit c = true) ∧
      (0 ≤ (float64Of lit).2 →
        scaled = (float64Of lit).1 * 2 ^ (float64Of lit).2.toNat * 100000) ∧
      ((float64Of lit).2 < 0 →
        2 * ((scaled * 2 ^ (-(float64Of lit).2).toNat : Int) -
          (float64Of lit).1 * 100000).natAbs ≤ 2 ^ (-(float64Of lit).2).toNat)) ∧
    Sprintf5f (.finite "0.5") = "0.50000" ∧ Sprintf5f (.finite "1") = "1.00000" := by
  refine ⟨?_, ?_, by decide, by decide⟩
  · simp [resultsFor, hscore, Value.GetNumberValue]
  · refine ⟨if 0 ≤ (float64Of lit).2 then
        (float64Of lit).1 * 2 ^ (float64Of lit).2.toNat * 100000
      else roundHalfEven ((float64Of lit).1 * 100000) (2 ^ (-(float64Of lit).2).toNat),
      rfl, padDigits_length _ (Nat.mod_lt _ (by decide)), padDigits_ne_empty _ _, ?_, ?_, ?_⟩
    · intro c hc
      rcases List.mem_append.1 hc with hc | hc
      · exact padDigits_isDigit _ _ c hc
      · exact padDigits_isDigit _ _ c hc
    · intro h
      rw [if_pos h]
    · intro h
      rw [if_neg (not_le.2 h)]
      have := roundHalfEven_near ((float64Of lit).1 * 100000) (2 ^ (-(float64Of lit).2).toNat)
        (Nat.pow_pos (by decide))
      push_cast at this ⊢
      exact this

theorem C14_score_five_decimals_witness :
    (resultsFor widgetA []).Score = Sprintf5f (.finite "0.87231") ∧
    Sprintf5f (.finite "0.87231") = "0.87231" :=
  ⟨(C14_score_five_decimals widgetA [] "0.87231" rfl).1, by decide⟩

/-- The run whose loop returns no error over the first events, continued by the pass
of the next event. -/
theorem ExecuteRequests_split {UserEvent : Type} (services : Services UserEvent)
    (recommendation : Recommendation) (done : List GoValue) (userEvent : GoValue)
    (rest : List GoValue) (hclient : services.NewRecommendationClient = none)
    (hevents : recommendation.UserEvents = done ++ userEvent :: rest)
    (hdone : (eventsLoop services recommendation (servingConfigOf recommendation) 0 done).2 =
      none) :
    recommendation.ExecuteRequests services =
      (establishing ::
          ((eventsLoop services recommendation (servingConfigOf recommendation) 0 done).1 ++
            (eventsLoop services recommendation (servingConfigOf recommendation) done.length
              (userEvent :: rest)).1) ++ [.Close],
        (eventsLoop services recommendation (servingConfigOf recommendation) done.length
          (userEvent :: rest)).2) := by
  rw [ExecuteRequests_established services recommendation hclient, hevents,
    eventsLoop_append services recommendation _ done (userEvent :: rest) 0 hdone, Nat.zero_add]

/-- C15: when the remote call for event k is the first step of a run to fail,
ExecuteRequests returns the wrapped error; the effects of the run are those of the
events before k, the two log lines and the call of event k, and the close of the
client; its records are the records of the events before k, and exactly k remote
calls are made. -/
theorem C15_remote_failure_aborts {UserEvent : Type} (services : Services UserEvent)
    (recommendation : Recommendation) (done : List GoValue) (userEvent : GoValue)
    (rest : List GoValue) (raw : Encoded) (pb : UserEvent) (err : Error)
    (hclient : services.NewRecommendationClient = none)
    (hevents : recommendation.UserEvents = done ++ userEvent :: rest)
    (hdone : (eventsLoop services recommendation (servingConfigOf recommendation) 0 done).2 =
      none)
    (hraw : Marshal userEvent = .ok raw) (hpb : services.Unmarshal raw = .ok pb)
    (hcall : services.Recommend done.length
      (requestFor recommendation (servingConfigOf recommendation) pb) = .error err) :
    (recommendation.ExecuteRequests services).2 =
      some (Errorf "Recommendation Request Failed: %w" err) ∧
    (recommendation.ExecuteRequests services).1 =
      establishing ::
        (eventsLoop services recommendation (servingConfigOf recommendation) 0 done).1 ++
        [announcement (done.length + 1), parametersLine raw,
          .Recommend (requestFor recommendation (servingConfigOf recommendation) pb),
          .Close] ∧
    recordsOf (recommendation.ExecuteRequests services).1 =
      recordsOf (eventsLoop services recommendation (servingConfigOf recommendation) 0
        done).1 ∧
    (requestsOf (recommendation.ExecuteRequests services).1).length = done.length + 1 := by
  have hpass := onePass_recommend_error services recommendation
    (servingConfigOf recommendation) done.length userEvent raw pb err hraw hpb hcall
  have hrun := ExecuteRequests_split services recommendation done userEvent rest hclient
    hevents hdone
  rw [eventsLoop_cons, hpass] at hrun
  simp only at hrun
  have hlen := eventsLoop_requests_length services recommendation
    (servingConfigOf recommendation) done 0 hdone
  rw [hrun]
  refine ⟨rfl, by simp, ?_, ?_⟩
  · simp [recordsOf_append, recordsOf, establishing, announcement, parametersLine]
  · simp [requestsOf_append, requestsOf, establishing, announcement, parametersLine, hlen]

theorem C15_remote_failure_aborts_witness :
    (({ widgetRun with UserEvents := [.map [], .map [], .map []] }).ExecuteRequests
        secondCallFails).2 =
      some (Errorf "Recommendation Request Failed: %w"
        (.external "rpc error: code = Unavailable")) ∧
    (requestsOf (({ widgetRun with UserEvents := [.map [], .map [], .map []] }).ExecuteRequests
        secondCallFails).1).length = 2 :=
  have h := C15_remote_failure_aborts secondCallFails
    { widgetRun with UserEvents := [.map [], .map [], .map []] } [.map []] (.map []) [.map []]
    (.object []) () (.external "rpc error: code = Unavailable") rfl rfl rfl rfl rfl rfl
  ⟨h.1, h.2.2.2⟩

/-- C16: when the conversion of event k to the wire schema is the first step of a run
to fail, ExecuteRequests returns an error; the requests and the records of the run
are those of the events before k, so no remote call is made for event k or for any
later event. -/
theorem C16_conversion_failure_aborts {UserEvent : Type} (services : Services UserEvent)
    (recommendation : Recommendation) (done : List GoValue) (userEvent : GoValue)
    (rest : List GoValue) (err : Error)
    (hclient : services.NewRecommendationClient = none)
    (hevents : recommendation.UserEvents = done ++ userEvent :: rest)
    (hdone : (eventsLoop services recommendation (servingConfigOf recommendation) 0 done).2 =
      none)
    (hconvert : convert services userEvent = .error err) :
    (∃ e, (recommendation.ExecuteRequests services).2 = some e) ∧
    (∀ raw, Marshal userEvent = .ok raw →
      (recommendation.ExecuteRequests services).2 =
        some (Errorf "Encoding the User Event as Protobuf Failed: %w" err)) ∧
    requestsOf (recommendation.ExecuteRequests services).1 =
      requestsOf (eventsLoop services recommendation (servingConfigOf recommendation) 0
        done).1 ∧
    (requestsOf (recommendation.ExecuteRequests services).1).length = done.length ∧
    recordsOf (recommendation.ExecuteRequests services).1 =
      recordsOf (eventsLoop services recommendation (servingConfigOf recommendation) 0
        done).1 := by
  have hrun := ExecuteRequests_split services recommendation done userEvent rest hclient
    hevents hdone
  have hlen := eventsLoop_requests_length services recommendation
    (servingConfigOf recommendation) done 0 hdone
  rw [eventsLoop_cons] at hrun
  unfold convert at hconvert
  cases hraw : Marshal userEvent with
  | error e =>
      rw [onePass_marshal_error services recommendation (servingConfigOf recommendation)
        done.length userEvent e hraw] at hrun
      simp only at hrun
      rw [hrun]
      refine ⟨⟨_, rfl⟩, ?_, ?_, ?_, ?_⟩
      · intro raw h; cases h
      · simp [requestsOf_append, requestsOf, establishing]
      · simp [requestsOf_append, requestsOf, establishing, hlen]
      · simp [recordsOf_append, recordsOf, establishing]
  | ok raw =>
      rw [hraw] at hconvert
      simp only at hconvert
      rw [onePass_unmarshal_error services recommendation (servingConfigOf recommendation)
        done.length userEvent raw err hraw hconvert] at hrun
      simp only at hrun
      rw [hrun]
      refine ⟨⟨_, rfl⟩, ?_, ?_, ?_, ?_⟩
      · intro raw2 _; rfl
      · simp [requestsOf_append, requestsOf, establishing, announcement, parametersLine]
      · simp [requestsOf_append, requestsOf, establishing, announcement, parametersLine, hlen]
      · simp [recordsOf_append, recordsOf, establishing, announcement, parametersLine]

theorem C16_conversion_failure_aborts_witness :
    (({ widgetRun with UserEvents := [.map [], .float64 (.finite "5"), .map []] }).ExecuteRequests
        objectsOnly).2 =
      some (Errorf "Encoding the User Event as Protobuf Failed: %w"
        (.protojson "unexpected token")) ∧
    (requestsOf
      (({ widgetRun with UserEvents := [.map [], .float64 (.finite "5"), .map []] }).ExecuteRequests
        objectsOnly).1).length = 1 :=
  have h := C16_conversion_failure_aborts objectsOnly
    { widgetRun with UserEvents := [.map [], .float64 (.finite "5"), .map []] } [.map []]
    (.float64 (.finite "5")) [.map []] (.protojson "unexpected token") rfl rfl rfl rfl
  ⟨h.2.1 _ rfl, h.2.2.2.1⟩

/-- C17: a pass whose response has no result items emits its two log lines and its
call, no result record and no error, and the loop goes on with the next event; in the
run of two events whose first response is the item with title `Widget A` and score
0.87231 and whose second response is empty, the records are the single record with
the identifier of the item, title `Widget A` and score `0.87231`, and no error is
returned. -/
theorem C17_empty_response_continues {UserEvent : Type} (services : Services UserEvent)
    (recommendation : Recommendation) (servingConfig : String) (i : Nat)
    (userEvent : GoValue) (rest : List GoValue) (raw : Encoded) (pb : UserEvent)
    (hraw : Marshal userEvent = .ok raw) (hpb : services.Unmarshal raw = .ok pb)
    (hcall : services.Recommend i (requestFor recommendation servingConfig pb) =
      .ok { Results := [] }) :
    (eventsLoop services recommendation servingConfig i (userEvent :: rest) =
      ([announcement (i + 1), parametersLine raw,
          .Recommend (requestFor recommendation servingConfig pb)] ++
          (eventsLoop services recommendation servingConfig (i + 1) rest).1,
        (eventsLoop services recommendation servingConfig (i + 1) rest).2)) ∧
    (recordsOf (widgetRun.ExecuteRequests widgetServices).1 =
        [.object [("id", .string "item-1"), ("title", .string "Widget A"),
          ("score", .string "0.87231")]] ∧
      (widgetRun.ExecuteRequests widgetServices).2 = none) := by
  refine ⟨?_, rfl, rfl⟩
  rw [eventsLoop_cons, onePass_response services recommendation servingConfig i userEvent raw
    pb _ hraw hpb hcall]
  rfl

theorem C17_empty_response_continues_witness :
    eventsLoop widgetServices widgetRun (servingConfigOf widgetRun) 1 [.map []] =
      ([announcement (1 + 1), parametersLine (.object []),
          .Recommend (requestFor widgetRun (servingConfigOf widgetRun) ())] ++
          (eventsLoop widgetServices widgetRun (servingConfigOf widgetRun) (1 + 1) []).1,
        (eventsLoop widgetServices widgetRun (servingConfigOf widgetRun) (1 + 1) []).2) :=
  (C17_empty_response_continues widgetServices widgetRun (servingConfigOf widgetRun) 1
    (.map []) [] (.object []) () rfl rfl rfl).1

/-- C19: in a run that returns no error exactly one remote call is made per event,
in the order of the events, the call of an event carrying the payload converted from
that event. -/
theorem C19_one_call_per_event {UserEvent : Type} (services : Services UserEvent)
    (recommendation : Recommendation)
    (hok : (recommendation.ExecuteRequests services).2 = none) :
    (requestsOf (recommendation.ExecuteRequests services).1).length =
      recommendation.UserEvents.length ∧
    List.Forall₂
      (fun request userEvent => convert services userEvent = .ok request.UserEvent)
      (requestsOf (recommendation.ExecuteRequests services).1) recommendation.UserEvents := by
  cases hclient : services.NewRecommendationClient with
  | some err => simp [Recommendation.ExecuteRequests, hclient] at hok
  | none =>
      rw [ExecuteRequests_established services recommendation hclient] at hok ⊢
      simp only at hok
      have key : ∀ (userEvents : List GoValue) (i : Nat),
          (eventsLoop services recommendation (servingConfigOf recommendation) i
            userEvents).2 = none →
          List.Forall₂
            (fun request userEvent => convert services userEvent = .ok request.UserEvent)
            (requestsOf (eventsLoop services recommendation (servingConfigOf recommendation)
              i userEvents).1) userEvents := by
        intro userEvents
        induction userEvents with
        | nil => intro i _; exact List.Forall₂.nil
        | cons userEvent rest ih =>
            intro i h
            rw [eventsLoop_cons] at h ⊢
            rcases onePass_cases services recommendation (servingConfigOf recommendation) i
              userEvent with
              ⟨err, hraw, hp⟩ | ⟨raw, err, hraw, hpb, hp⟩ | ⟨raw, pb, err, hraw, hpb, hcall, hp⟩ |
              ⟨raw, pb, response, hraw, hpb, hcall, hp⟩
            · rw [hp] at h; cases h
            · rw [hp] at h; cases h
            · rw [hp] at h; cases h
            · rw [hp] at h ⊢
              cases hres : (@resultsLoop UserEvent recommendation response.Results).2 with
              | some e => rw [hres] at h; cases h
              | none =>
                  rw [hres] at h
                  simp only at h ⊢
                  have hout := @requestsOf_resultsLoop UserEvent recommendation
                    response.Results
                  have htail := ih (i + 1) h
                  have hreq : requestsOf
                      ((announcement (↑i + 1) :: parametersLine raw ::
                        Effect.Recommend (requestFor recommendation
                          (servingConfigOf recommendation) pb) ::
                        (@resultsLoop UserEvent recommendation response.Results).1) ++
                      (eventsLoop services recommendation (servingConfigOf recommendation)
                        (i + 1) rest).1) =
                      requestFor recommendation (servingConfigOf recommendation) pb ::
                        requestsOf (eventsLoop services recommendation
                          (servingConfigOf recommendation) (i + 1) rest).1 := by
                    simp [requestsOf_append, requestsOf, announcement, parametersLine, hout]
                  rw [hreq]
                  refine List.Forall₂.cons ?_ htail
                  simp [convert, hraw, hpb, requestFor]
      have hall := key recommendation.UserEvents 0 hok
      have hreq : requestsOf (establishing ::
          (eventsLoop services recommendation (servingConfigOf recommendation) 0
            recommendation.UserEvents).1 ++ [Effect.Close]) =
          requestsOf (eventsLoop services recommendation (servingConfigOf recommendation) 0
            recommendation.UserEvents).1 := by
        simp [requestsOf_append, requestsOf, establishing]
      simp only [hreq]
      exact ⟨hall.length_eq, hall⟩

theorem C19_one_call_per_event_witness :
    (requestsOf (widgetRun.ExecuteRequests widgetServices).1).length = 2 :=
  (C19_one_call_per_event widgetServices widgetRun rfl).1

/-- C18 (as stated, refuted): with the project flag empty main exits with status 1,
although neither LoadParameters nor ExecuteRequests returns an error on the same
input; main calls neither. -/
theorem C18_missing_flag_counterexample :
    (@Main.main Unit (fileWith "[]") quietServices { sampleFlags with projectNumber := "" }).1 =
      1 ∧
    ((NewRecommendation "" "global" "default_data_store" "0" "s" 5 "").LoadParameters
      (fileWith "[]") "events.json").2 = none ∧
    (((NewRecommendation "" "global" "default_data_store" "0" "s" 5 "").LoadParameters
      (fileWith "[]") "events.json").1.ExecuteRequests quietServices).2 = none :=
  ⟨by decide, by decide, by decide⟩

/-- C18 (amended): once the client is established, ExecuteRequests returns no error
if and only if, for every input event, the event is converted, its remote call
succeeds and the fields of every returned document are extracted; once the flags have
passed the two checks at the start of main, main exits with status 0 or 1, and with a
non-zero status exactly when LoadParameters or ExecuteRequests returns an error; when
a check fails main prints the usage and exits with status 1. -/
theorem C18_exit_status {UserEvent : Type} (fs : FileSystem) (services : Services UserEvent)
    (recommendation : Recommendation) (flags : Flags) :
    (services.NewRecommendationClient = none →
      ((recommendation.ExecuteRequests services).2 = none ↔
        ∀ (k : Nat) (hk : k < recommendation.UserEvents.length),
          passSucceeds services recommendation (servingConfigOf recommendation) k
            (recommendation.UserEvents.get ⟨k, hk⟩))) ∧
    (flags.valid = true →
      ((Main.main fs services flags).1 = 0 ∨ (Main.main fs services flags).1 = 1) ∧
      ((Main.main fs services flags).1 ≠ 0 ↔
        ((NewRecommendation flags.projectNumber flags.location flags.dataStore flags.branch
            flags.servingConfig flags.numberResults flags.filterString).LoadParameters fs
            flags.parameterInputFile).2 ≠ none ∨
        (((NewRecommendation flags.projectNumber flags.location flags.dataStore flags.branch
            flags.servingConfig flags.numberResults flags.filterString).LoadParameters fs
            flags.parameterInputFile).1.ExecuteRequests services).2 ≠ none)) ∧
    (flags.valid = false → Main.main fs services flags = (1, [.Usage])) := by
  refine ⟨?_, ?_, ?_⟩
  · intro hclient
    rw [ExecuteRequests_established services recommendation hclient]
    simp only
    have h := eventsLoop_ok_iff services recommendation (servingConfigOf recommendation)
      recommendation.UserEvents 0
    simpa using h
  · intro hvalid
    simp only [Flags.valid, Bool.and_eq_true, Bool.not_eq_true'] at hvalid
    simp only [Main.main, hvalid.1, hvalid.2, Bool.false_eq_true, if_false]
    generalize (NewRecommendation flags.projectNumber flags.location flags.dataStore
      flags.branch flags.servingConfig flags.numberResults flags.filterString).LoadParameters
      fs flags.parameterInputFile = loaded
    obtain ⟨loadedRecommendation, loadError⟩ := loaded
    cases loadError with
    | some err => simp
    | none =>
        simp only
        generalize loadedRecommendation.ExecuteRequests services = run
        obtain ⟨effects, runError⟩ := run
        cases runError with
        | some err => simp
        | none => simp
  · intro hinvalid
    simp only [Flags.valid, Bool.and_eq_false_iff, Bool.not_eq_false'] at hinvalid
    rcases hinvalid with h | h
    · simp only [Main.main, h, if_true]
    · simp only [Main.main, h, if_true]
      split <;> rfl

theorem C18_exit_status_witness :
    quietServices.NewRecommendationClient = none ∧ sampleFlags.valid = true ∧
    ((@Main.main Unit (fileWith "[]") quietServices sampleFlags).1 = 0 ∨
      (@Main.main Unit (fileWith "[]") quietServices sampleFlags).1 = 1) ∧
    (({ sampleFlags with numberResults := 0 }).valid = false ∧
      @Main.main Unit (fileWith "[]") quietServices { sampleFlags with numberResults := 0 } =
        (1, [.Usage])) :=
  ⟨rfl, by decide,
    ((C18_exit_status (fileWith "[]") quietServices widgetRun sampleFlags).2.1 (by decide)).1,
    by decide,
    (C18_exit_status (fileWith "[]") quietServices widgetRun
      { sampleFlags with numberResults := 0 }).2.2 (by decide)⟩

/-- The effects of the loop are the blocks of the passes it makes, in order; a loop
that returns no error makes a pass for every event. -/
theorem eventsLoop_blocks {UserEvent : Type} (services : Services UserEvent)
    (recommendation : Recommendation) (servingConfig : String) (userEvents : List GoValue) :
    ∀ i : Nat, ∃ m, m ≤ userEvents.length ∧
      (eventsLoop services recommendation servingConfig i userEvents).1 =
        (passesFrom services recommendation servingConfig i (userEvents.take m)).flatten ∧
      orderedFrom i (passesFrom services recommendation servingConfig i (userEvents.take m)) ∧
      ((eventsLoop services recommendation servingConfig i userEvents).2 = none →
        m = userEvents.length) := by
  induction userEvents with
  | nil => intro i; exact ⟨0, le_refl _, rfl, trivial, fun _ => rfl⟩
  | cons userEvent rest ih =>
      intro i
      rw [eventsLoop_cons]
      rcases onePass_cases services recommendation servingConfig i userEvent with
        ⟨err, hraw, hp⟩ | ⟨raw, err, hraw, hpb, hp⟩ | ⟨raw, pb, err, hraw, hpb, hcall, hp⟩ |
        ⟨raw, pb, response, hraw, hpb, hcall, hp⟩
      · exact ⟨0, Nat.zero_le _, by rw [hp]; rfl, trivial, by rw [hp]; intro h; cases h⟩
      · refine ⟨1, by simp, ?_, ?_, by rw [hp]; intro h; cases h⟩
        · simp [passesFrom, hp]
        · simp only [List.take_succ_cons, List.take_zero, passesFrom, hp, orderedFrom,
            and_true]
          exact ⟨raw, [], rfl, Or.inl rfl⟩
      · refine ⟨1, by simp, ?_, ?_, by rw [hp]; intro h; cases h⟩
        · simp [passesFrom, hp]
        · simp only [List.take_succ_cons, List.take_zero, passesFrom, hp, orderedFrom,
            and_true]
          exact ⟨raw, _, rfl, Or.inr ⟨_, [], rfl⟩⟩
      · have hlines := @resultsLoop_lines UserEvent recommendation response.Results
        have hshape : ∃ line tail,
            (announcement (↑i + 1) :: parametersLine raw ::
              Effect.Recommend (requestFor recommendation servingConfig pb) ::
              (@resultsLoop UserEvent recommendation response.Results).1) =
              announcement (↑i + 1) :: parametersLine line :: tail ∧
            (tail = [] ∨ ∃ (request : RecommendRequest UserEvent) (records : List Encoded),
              tail = .Recommend request :: records.map resultsLine) :=
          ⟨raw, _, rfl, Or.inr ⟨_, _, by rw [← hlines]⟩⟩
        cases hres : (@resultsLoop UserEvent recommendation response.Results).2 with
        | some e =>
            rw [hp, hres]
            refine ⟨1, by simp, ?_, ?_, by intro h; cases h⟩
            · simp [passesFrom, hp]
            · simp only [List.take_succ_cons, List.take_zero, passesFrom, hp, orderedFrom,
                and_true]
              exact hshape
        | none =>
            rw [hp, hres]
            obtain ⟨m, hm, htrace, hordered, hall⟩ := ih (i + 1)
            refine ⟨m + 1, by simpa using hm, ?_, ?_, ?_⟩
            · simp only [List.take_succ_cons, passesFrom, hp, List.flatten_cons, htrace]
            · simp only [List.take_succ_cons, passesFrom, hp, orderedFrom]
              exact ⟨hshape, hordered⟩
            · intro h
              simp only at h
              simp [hall h]

/-- C20: the effects of a run, after its first line and before the close of the
client, are the blocks of the passes made, one per processed event and in the order
of the events; block i starts with the one line that announces number i, followed by
the line of the parameters and then by the remote call of the event and the result
records of that event only, so everything of event i precedes the announcement and
the call of event i+1, and records of different events are never interleaved; a run
that returns no error has a block for every event. -/
theorem C20_blocks_in_order {UserEvent : Type} (services : Services UserEvent)
    (recommendation : Recommendation) (hclient : services.NewRecommendationClient = none) :
    ∃ m, m ≤ recommendation.UserEvents.length ∧
      (recommendation.ExecuteRequests services).1 =
        establishing ::
          (passesFrom services recommendation (servingConfigOf recommendation) 0
            (recommendation.UserEvents.take m)).flatten ++ [.Close] ∧
      orderedFrom 0
        (passesFrom services recommendation (servingConfigOf recommendation) 0
          (recommendation.UserEvents.take m)) ∧
      ((recommendation.ExecuteRequests services).2 = none →
        m = recommendation.UserEvents.length) := by
  obtain ⟨m, hm, htrace, hordered, hall⟩ := eventsLoop_blocks services recommendation
    (servingConfigOf recommendation) recommendation.UserEvents 0
  refine ⟨m, hm, ?_, hordered, ?_⟩
  · rw [ExecuteRequests_established services recommendation hclient, htrace]
  · rw [ExecuteRequests_established services recommendation hclient]
    exact hall

theorem C20_blocks_in_order_witness :
    ∃ m, m ≤ widgetRun.UserEvents.length ∧
      (widgetRun.ExecuteRequests widgetServices).1 =
        establishing ::
          (passesFrom widgetServices widgetRun (servingConfigOf widgetRun) 0
            (widgetRun.UserEvents.take m)).flatten ++ [.Close] ∧
      orderedFrom 0
        (passesFrom widgetServices widgetRun (servingConfigOf widgetRun) 0
          (widgetRun.UserEvents.take m)) ∧
      ((widgetRun.ExecuteRequests widgetServices).2 = none →
        m = widgetRun.UserEvents.length) :=
  C20_blocks_in_order widgetServices widgetRun rfl

/-! ## The errors, the document title, the flags and the serialized record -/

/-- An error of the inner loop is the wrapped error of a field extraction. -/
theorem resultsLoop_error {UserEvent : Type} (recommendation : Recommendation)
    (results : List RecommendationResult) (err : Error)
    (herr : (@resultsLoop UserEvent recommendation results).2 = some err) :
    ∃ document cause, recommendation.GetFields document = .error cause ∧
      err = Errorf "Failed to get the Document Data Fields: %w" cause := by
  induction results with
  | nil => simp [resultsLoop] at herr
  | cons result rest ih =>
      simp only [resultsLoop] at herr
      cases hf : recommendation.GetFields result.Document with
      | error cause =>
          simp only [hf, Option.some.injEq] at herr
          exact ⟨result.Document, cause, hf, herr.symm⟩
      | ok fields =>
          simp only [hf, MarshalResults] at herr
          exact ih herr

/-- An error of the outer loop is the wrapped error of the encoding or of the
conversion of an event, of a remote call or of a field extraction. -/
theorem eventsLoop_error {UserEvent : Type} (services : Services UserEvent)
    (recommendation : Recommendation) (servingConfig : String) (userEvents : List GoValue)
    (err : Error) :
    ∀ i : Nat, (eventsLoop services recommendation servingConfig i userEvents).2 = some err →
      (∃ userEvent cause, userEvent ∈ userEvents ∧ Marshal userEvent = .error cause ∧
        err = Errorf "Encoding the User Event as JSON Failed: %w" cause) ∨
      (∃ userEvent raw cause, userEvent ∈ userEvents ∧ Marshal userEvent = .ok raw ∧
        services.Unmarshal raw = .error cause ∧
        err = Errorf "Encoding the User Event as Protobuf Failed: %w" cause) ∨
      (∃ k request cause, services.Recommend k request = .error cause ∧
        err = Errorf "Recommendation Request Failed: %w" cause) ∨
      (∃ document cause, recommendation.GetFields document = .error cause ∧
        err = Errorf "Failed to get the Document Data Fields: %w" cause) := by
  induction userEvents with
  | nil => intro i h; simp [eventsLoop] at h
  | cons userEvent rest ih =>
      intro i h
      rw [eventsLoop_cons] at h
      rcases onePass_cases services recommendation servingConfig i userEvent with
        ⟨cause, hraw, hp⟩ | ⟨raw, cause, hraw, hpb, hp⟩ |
        ⟨raw, pb, cause, hraw, hpb, hcall, hp⟩ | ⟨raw, pb, response, hraw, hpb, hcall, hp⟩
      · rw [hp] at h
        simp only [Option.some.injEq] at h
        exact Or.inl ⟨userEvent, cause, List.mem_cons_self _ _, hraw, h.symm⟩
      · rw [hp] at h
        simp only [Option.some.injEq] at h
        exact Or.inr (Or.inl ⟨userEvent, raw, cause, List.mem_cons_self _ _, hraw, hpb, h.symm⟩)
      · rw [hp] at h
        simp only [Option.some.injEq] at h
        exact Or.inr (Or.inr (Or.inl ⟨i, _, cause, hcall, h.symm⟩))
      · rw [hp] at h
        cases hres : (@resultsLoop UserEvent recommendation response.Results).2 with
        | some e =>
            rw [hres] at h
            simp only [Option.some.injEq] at h
            subst h
            exact Or.inr (Or.inr (Or.inr
              (resultsLoop_error recommendation response.Results e hres)))
        | none =>
            rw [hres] at h
            simp only at h
            rcases ih (i + 1) h with ⟨ev, cause, hmem, h1, h2⟩ | ⟨ev, raw2, cause, hmem, h1, h2, h3⟩ |
              h3 | h4
            · exact Or.inl ⟨ev, cause, List.mem_cons_of_mem _ hmem, h1, h2⟩
            · exact Or.inr (Or.inl ⟨ev, raw2, cause, List.mem_cons_of_mem _ hmem, h1, h2, h3⟩)
            · exact Or.inr (Or.inr (Or.inl h3))
            · exact Or.inr (Or.inr (Or.inr h4))

/-- C21: every error returned by LoadParameters, ExecuteRequests and GetFields is the
underlying cause wrapped under the format of the stage that failed: reading or
parsing the file, establishing the client, encoding or converting the event, the
remote call, extracting the document fields, decoding the JSON text; the formats are
pairwise distinct, the format and the cause are recovered from the error, and the
text that a format puts before the cause is not the start of another format, so the
stage that failed is determined by the error alone. -/
theorem C21_errors_name_the_stage {UserEvent : Type} (fs : FileSystem)
    (services : Services UserEvent) (recommendation : Recommendation) (inputFile : String)
    (document : Option Document) :
    (∀ err, (recommendation.LoadParameters fs inputFile).2 = some err →
      (∃ cause, fs.ReadFile (fs.Abs inputFile) = .error cause ∧
        err = Errorf "Reading the Parameter Input File Failed: %w" cause) ∨
      (∃ buf cause, fs.ReadFile (fs.Abs inputFile) = .ok buf ∧
        (UnmarshalSlice buf recommendation.UserEvents).2 = some cause ∧
        err = Errorf "Parsing the Parameter Input File Failed: %w" cause)) ∧
    (∀ err, (recommendation.ExecuteRequests services).2 = some err →
      (∃ cause, services.NewRecommendationClient = some cause ∧
        err = Errorf "Failed to establish a Discovery Engine Recommendation Client: %w"
          cause) ∨
      (∃ userEvent cause, userEvent ∈ recommendation.UserEvents ∧
        Marshal userEvent = .error cause ∧
        err = Errorf "Encoding the User Event as JSON Failed: %w" cause) ∨
      (∃ userEvent raw cause, userEvent ∈ recommendation.UserEvents ∧
        Marshal userEvent = .ok raw ∧ services.Unmarshal raw = .error cause ∧
        err = Errorf "Encoding the User Event as Protobuf Failed: %w" cause) ∨
      (∃ k request cause, services.Recommend k request = .error cause ∧
        err = Errorf "Recommendation Request Failed: %w" cause) ∨
      (∃ doc cause, recommendation.GetFields doc = .error cause ∧
        err = Errorf "Failed to get the Document Data Fields: %w" cause)) ∧
    (∀ err, recommendation.GetFields document = .error err →
      ∃ cause, (UnmarshalFields (Document.GetJsonData document) []).2 = some cause ∧
        err = Errorf "Failed to Unmarshal the Document JSON Data: %w" cause) ∧
    stageFormats.Nodup ∧
    (∀ format other cause cause2,
      Errorf format cause = Errorf other cause2 → format = other ∧ cause = cause2) ∧
    (∀ format ∈ stageFormats, ∀ other ∈ stageFormats,
      format.toList.dropLast.dropLast <+: other.toList → format = other) := by
  refine ⟨?_, ?_, ?_, by decide, fun _ _ _ _ h => by cases h; exact ⟨rfl, rfl⟩, by decide⟩
  · intro err h
    simp only [Recommendation.LoadParameters] at h
    cases hread : fs.ReadFile (fs.Abs inputFile) with
    | error cause =>
        simp only [hread, Option.some.injEq] at h
        exact Or.inl ⟨cause, rfl, h.symm⟩
    | ok buf =>
        simp only [hread] at h
        cases hdec : UnmarshalSlice buf recommendation.UserEvents with
        | mk events e =>
            rw [hdec] at h
            cases e with
            | none => simp at h
            | some cause =>
                simp only [Option.some.injEq] at h
                exact Or.inr ⟨buf, cause, rfl, by rw [hdec], h.symm⟩
  · intro err h
    cases hclient : services.NewRecommendationClient with
    | some cause =>
        simp only [Recommendation.ExecuteRequests, hclient, Option.some.injEq] at h
        exact Or.inl ⟨cause, rfl, h.symm⟩
    | none =>
        rw [ExecuteRequests_established services recommendation hclient] at h
        exact Or.inr (eventsLoop_error services recommendation _ _ err 0 h)
  · intro err h
    simp only [Recommendation.GetFields] at h
    split at h
    · cases hdec : UnmarshalFields (Document.GetJsonData document) [] with
      | mk fields e =>
          rw [hdec] at h
          cases e with
          | none => simp at h
          | some cause =>
              simp only [Except.error.injEq] at h
              exact ⟨cause, rfl, h.symm⟩
    · split at h <;> cases h

theorem C21_errors_name_the_stage_witness :
    ∃ cause, (UnmarshalFields (Document.GetJsonData (some (Document.mk "\x7b" none))) []).2 =
        some cause ∧
      Errorf "Failed to Unmarshal the Document JSON Data: %w" .syntaxError =
        Errorf "Failed to Unmarshal the Document JSON Data: %w" cause :=
  (C21_errors_name_the_stage (fileWith "[]") quietServices widgetRun "events.json"
    (some (Document.mk "\x7b" none))).2.2.1 _ rfl

/-- C22: for every identifier, the only request GetDocumentTitle makes is for the
document named `projects/<project>/locations/<location>/dataStores/<data
store>/branches/<branch>/documents/<id>`; when the request and the field extraction
succeed it returns the string value of the `title` field of the extracted mapping,
the empty string when there is none; when the request or the extraction fails it
returns the wrapped error and no title. -/
theorem C22_document_title (services : DocumentServices) (recommendation : Recommendation)
    (id : String) :
    (∀ request ∈ (recommendation.GetDocumentTitle services id).1,
      request.Name =
        "projects/" ++ recommendation.Project ++ "/locations/" ++ recommendation.Location ++
          "/dataStores/" ++ recommendation.DataStore ++ "/branches/" ++
          recommendation.Branch ++ "/documents/" ++ id) ∧
    (services.NewDocumentClient = none →
      (recommendation.GetDocumentTitle services id).1 =
        [{ Name := documentNameOf recommendation id }]) ∧
    (∀ response fields, services.NewDocumentClient = none →
      services.GetDocument { Name := documentNameOf recommendation id } = .ok response →
      recommendation.GetFields response = .ok fields →
      (recommendation.GetDocumentTitle services id).2 =
        .ok (Value.GetStringValue (mapIndex fields "title")) ∧
      (mapGet fields "title" = none →
        (recommendation.GetDocumentTitle services id).2 = .ok "")) ∧
    (∀ cause, services.NewDocumentClient = none →
      services.GetDocument { Name := documentNameOf recommendation id } = .error cause →
      (recommendation.GetDocumentTitle services id).2 =
        .error (Errorf "Document Request Failed: %w" cause)) ∧
    (∀ response cause, services.NewDocumentClient = none →
      services.GetDocument { Name := documentNameOf recommendation id } = .ok response →
      recommendation.GetFields response = .error cause →
      (recommendation.GetDocumentTitle services id).2 =
        .error (Errorf "Failed to get the Document Data Fields: %w" cause)) := by
  refine ⟨?_, ?_, ?_, ?_, ?_⟩
  · intro request hrequest
    simp only [Recommendation.GetDocumentTitle] at hrequest
    split at hrequest
    · simp at hrequest
    · split at hrequest
      · simp only [List.mem_singleton] at hrequest
        rw [hrequest]
      · split at hrequest <;>
        · simp only [List.mem_singleton] at hrequest
          rw [hrequest]
  · intro hclient
    simp only [Recommendation.GetDocumentTitle, hclient, documentNameOf]
    split
    · rfl
    · split <;> rfl
  · intro response fields hclient hget hfields
    simp only [documentNameOf] at hget
    have h : (recommendation.GetDocumentTitle services id).2 =
        .ok (Value.GetStringValue (mapIndex fields "title")) := by
      simp only [Recommendation.GetDocumentTitle, hclient, hget, hfields]
    refine ⟨h, ?_⟩
    intro hnone
    rw [h]
    simp [mapIndex, hnone, Value.GetStringValue]
  · intro cause hclient hget
    simp only [documentNameOf] at hget
    simp only [Recommendation.GetDocumentTitle, hclient, hget]
  · intro response cause hclient hget hfields
    simp only [documentNameOf] at hget
    simp only [Recommendation.GetDocumentTitle, hclient, hget, hfields]

theorem C22_document_title_witness :
    (widgetRun.GetDocumentTitle widgetDocuments "item-1").1 =
        [{ Name := "projects/p/locations/global/dataStores/d/branches/0/documents/item-1" }] ∧
    (widgetRun.GetDocumentTitle widgetDocuments "item-1").2 = .ok "Widget A" :=
  ⟨(C22_document_title widgetDocuments widgetRun "item-1").2.1 rfl,
   ((C22_document_title widgetDocuments widgetRun "item-1").2.2.1 widgetA.Document
      [("title", some (.string "Widget A"))] rfl rfl rfl).1⟩

theorem mem_requestsOf {UserEvent : Type} (request : RecommendRequest UserEvent) :
    ∀ effects : List (Effect UserEvent),
      Effect.Recommend request ∈ effects → request ∈ requestsOf effects
  | [], h => by simp at h
  | .Recommend r :: rest, h => by
      simp only [List.mem_cons, Effect.Recommend.injEq] at h
      simp only [requestsOf, List.mem_cons]
      rcases h with h | h
      · exact Or.inl h
      · exact Or.inr (mem_requestsOf request rest h)
  | .Info field msg :: rest, h => by
      simp only [List.mem_cons] at h
      simp only [requestsOf]
      rcases h with h | h
      · cases h
      · exact mem_requestsOf request rest h
  | .Close :: rest, h => by
      simp only [List.mem_cons] at h
      simp only [requestsOf]
      rcases h with h | h
      · cases h
      · exact mem_requestsOf request rest h

/-- C23: main goes past its check of the number of results exactly when 1 <= n <=
100: for n below 1 or above 100 it prints the usage and exits with status 1, whatever
the file system and the services are, with no other effect; for n in range the page
size of the configuration is n, and so is the page size of every request of the
run. -/
theorem C23_number_of_results_range {UserEvent : Type} (fs : FileSystem)
    (services : Services UserEvent) (flags : Flags) :
    (flags.numberResults < 1 ∨ 100 < flags.numberResults →
      Main.main fs services flags = (1, [.Usage])) ∧
    (flags.required = true →
      ((Main.main fs services flags).2 = [.Usage] ↔
        (flags.numberResults < 1 ∨ 100 < flags.numberResults))) ∧
    (1 ≤ flags.numberResults ∧ flags.numberResults ≤ 100 →
      (NewRecommendation flags.projectNumber flags.location flags.dataStore flags.branch
        flags.servingConfig flags.numberResults flags.filterString).PageSize =
        flags.numberResults ∧
      ∀ request, MainEffect.Run (.Recommend request) ∈ (Main.main fs services flags).2 →
        request.PageSize = flags.numberResults) := by
  refine ⟨?_, ?_, ?_⟩
  · intro hn
    have h : (decide (flags.numberResults < 1) || decide (flags.numberResults > 100)) = true := by
      simpa using hn
    simp only [Main.main, h, if_true]
    split <;> rfl
  · intro hreq
    simp only [Flags.required, Bool.not_eq_true'] at hreq
    by_cases hn : flags.numberResults < 1 ∨ 100 < flags.numberResults
    · have h : (decide (flags.numberResults < 1) || decide (flags.numberResults > 100)) =
          true := by simpa using hn
      simp only [Main.main, hreq, h, Bool.false_eq_true, if_false, if_true, hn]
    · have h : (decide (flags.numberResults < 1) || decide (flags.numberResults > 100)) =
          false := by
        simp only [not_or, not_lt] at hn
        simp [hn.1, hn.2]
      simp only [Main.main, hreq, h, Bool.false_eq_true, if_false, hn, iff_false]
      split
      · simp
      · split <;> simp
  · intro hn
    have hpage : (NewRecommendation flags.projectNumber flags.location flags.dataStore
        flags.branch flags.servingConfig flags.numberResults flags.filterString).PageSize =
        flags.numberResults := by
      simp only [NewRecommendation, int32]
      omega
    refine ⟨hpage, ?_⟩
    intro request hmem
    simp only [Main.main] at hmem
    split at hmem
    · simp at hmem
    · split at hmem
      · simp at hmem
      · split at hmem
        · simp at hmem
        · rename_i loaded hload
          have hconfig := LoadParameters_config fs
            (NewRecommendation flags.projectNumber flags.location flags.dataStore
              flags.branch flags.servingConfig flags.numberResults flags.filterString)
            flags.parameterInputFile
          rw [hload] at hconfig
          simp only at hconfig
          have hrun : Effect.Recommend request ∈ (loaded.ExecuteRequests services).1 := by
            split at hmem
            · rename_i effects err hexec
              rw [hexec]
              simpa using hmem
            · rename_i effects hexec
              rw [hexec]
              simpa using hmem
          have h := requestsOf_ExecuteRequests services loaded request
            (mem_requestsOf request _ hrun)
          rw [h.1, hconfig.1, hpage]

theorem C23_number_of_results_range_witness :
    @Main.main Unit (fileWith "[]") quietServices { sampleFlags with numberResults := 101 } =
      (1, [.Usage]) ∧
    (NewRecommendation "p" "global" "default_data_store" "0" "s" 5 "").PageSize = 5 :=
  ⟨(C23_number_of_results_range (fileWith "[]") quietServices
      { sampleFlags with numberResults := 101 }).1 (Or.inr (by decide)),
   ((C23_number_of_results_range (fileWith "[]") quietServices sampleFlags).2.2
      ⟨by decide, by decide⟩).1⟩

theorem Sprintf5f_ne_empty (x : Float64) : Sprintf5f x ≠ "" := by
  cases x with
  | nan => decide
  | inf negative => cases negative <;> decide
  | finite lit =>
      intro h
      have hlen := congrArg String.length h
      simp only [Sprintf5f, String.length_append] at hlen
      have hdot : ".".length = 1 := rfl
      have hempty : "".length = 0 := rfl
      rw [hdot, hempty] at hlen
      omega

/-- C24: the serialized record of a response item always has the `score` key; it has
the `title` key exactly when the title is not the empty string and the `id` key
exactly when the identifier is not the empty string, so an item whose mapping has no
`title` entry is emitted without any `title` key. -/
theorem C24_serialized_record_keys (result : RecommendationResult) (fields : Fields) :
    ∃ members, MarshalResults (resultsFor result fields) = .ok (.object members) ∧
      mapGet members "score" = some (.string (resultsFor result fields).Score) ∧
      ((resultsFor result fields).Title = "" → mapGet members "title" = none) ∧
      ((resultsFor result fields).Title ≠ "" →
        mapGet members "title" = some (.string (resultsFor result fields).Title)) ∧
      (result.Id = "" → mapGet members "id" = none) ∧
      (result.Id ≠ "" → mapGet members "id" = some (.string result.Id)) ∧
      (mapGet fields "title" = none → mapGet members "title" = none) := by
  have hscore : (resultsFor result fields).Score ≠ "" := Sprintf5f_ne_empty _
  have hid : (resultsFor result fields).Id = result.Id := rfl
  have hmissing : mapGet fields "title" = none → (resultsFor result fields).Title = "" := by
    intro h
    simp [resultsFor, mapIndex, h, Value.GetStringValue]
  generalize resultsFor result fields = results at hscore hid hmissing
  obtain ⟨ident, title, score⟩ := results
  simp only at hscore hid hmissing
  subst hid
  have hs : (score != "") = true := by simpa using hscore
  refine ⟨_, rfl, ?_⟩
  simp only [List.filter, hs]
  cases hbi : (result.Id != "") <;> cases hbt : (title != "") <;> simp_all [mapGet]

theorem C24_serialized_record_keys_witness :
    ∃ members,
      MarshalResults (resultsFor { widgetA with Document := none } []) = .ok (.object members) ∧
      mapGet members "score" = some (.string "0.87231") ∧ mapGet members "title" = none := by
  obtain ⟨members, h1, h2, h3, _⟩ :=
    C24_serialized_record_keys { widgetA with Document := none } []
  exact ⟨members, h1, h2.trans rfl, h3 rfl⟩

/-- C25 (as stated, refuted): the metadata of the item has no `score` entry, yet the
run raises an error and emits no record: the JSON text of the document of the item
does not decode, and the extraction error is returned before the score is read. -/
theorem C25_extraction_failure_counterexample :
    mapGet unreadableItem.Metadata "score" = none ∧
    (@resultsLoop Unit widgetRun [unreadableItem]).2 =
      some (Errorf "Failed to get the Document Data Fields: %w"
        (Errorf "Failed to Unmarshal the Document JSON Data: %w" .syntaxError)) ∧
    (widgetRun.ExecuteRequests unreadableServices).2 =
      some (Errorf "Failed to get the Document Data Fields: %w"
        (Errorf "Failed to Unmarshal the Document JSON Data: %w" .syntaxError)) ∧
    recordsOf (widgetRun.ExecuteRequests unreadableServices).1 = [] :=
  ⟨rfl, rfl, rfl, rfl⟩

/-- C25 (amended): for a result item whose document fields are extracted, the inner
loop raises no error for the item, emits its record and goes on with the next item;
when the metadata has no `score` entry, or a `score` entry that is not a number, the
Score of the record is `0.00000` and the emitted record has it under the `score`
key; when the `title` entry is not a string, the Title is the empty string and the
emitted record has no `title` key. -/
theorem C25_missing_score_and_title {UserEvent : Type} (recommendation : Recommendation)
    (result : RecommendationResult) (rest : List RecommendationResult) (fields : Fields)
    (hfields : recommendation.GetFields result.Document = .ok fields) :
    ((∀ x, mapIndex result.Metadata "score" ≠ some (.number x)) →
      (resultsFor result fields).Score = "0.00000") ∧
    ((∀ title, mapIndex fields "title" ≠ some (.string title)) →
      (resultsFor result fields).Title = "") ∧
    (∃ raw, MarshalResults (resultsFor result fields) = .ok raw ∧
      @resultsLoop UserEvent recommendation (result :: rest) =
        (resultsLine raw :: (@resultsLoop UserEvent recommendation rest).1,
          (@resultsLoop UserEvent recommendation rest).2)) ∧
    (∃ members, MarshalResults (resultsFor result fields) = .ok (.object members) ∧
      ((∀ x, mapIndex result.Metadata "score" ≠ some (.number x)) →
        mapGet members "score" = some (.string "0.00000")) ∧
      ((∀ title, mapIndex fields "title" ≠ some (.string title)) →
        mapGet members "title" = none)) := by
  have hscore : (∀ x, mapIndex result.Metadata "score" ≠ some (.number x)) →
      (resultsFor result fields).Score = "0.00000" := by
    intro h
    have hzero : Value.GetNumberValue (mapIndex result.Metadata "score") = .finite "0" := by
      cases hv : mapIndex result.Metadata "score" with
      | none => rfl
      | some v =>
          cases v with
          | number x => exact absurd hv (h x)
          | null => rfl
          | string s => rfl
          | bool b => rfl
          | struct fs => rfl
          | list vs => rfl
    simp only [resultsFor, hzero]
    decide
  have htitle : (∀ title, mapIndex fields "title" ≠ some (.string title)) →
      (resultsFor result fields).Title = "" := by
    intro h
    cases hv : mapIndex fields "title" with
    | none => simp [resultsFor, hv, Value.GetStringValue]
    | some v =>
        cases v with
        | string s => exact absurd hv (h s)
        | null => simp [resultsFor, hv, Value.GetStringValue]
        | number x => simp [resultsFor, hv, Value.GetStringValue]
        | bool b => simp [resultsFor, hv, Value.GetStringValue]
        | struct fs => simp [resultsFor, hv, Value.GetStringValue]
        | list vs => simp [resultsFor, hv, Value.GetStringValue]
  refine ⟨hscore, htitle, ⟨_, rfl, ?_⟩, ?_⟩
  · simp only [resultsLoop, hfields, MarshalResults, resultsFor, resultsLine]
  · have hs := hscore
    have ht := htitle
    generalize resultsFor result fields = results at hs ht
    obtain ⟨ident, title, score⟩ := results
    simp only at hs ht
    refine ⟨_, rfl, ?_, ?_⟩
    · intro h
      have hsc := hs h
      subst hsc
      simp only [List.filter]
      cases hbi : (ident != "") <;> cases hbt : (title != "") <;> simp_all [mapGet]
    · intro h
      have htt := ht h
      subst htt
      simp only [List.filter]
      cases hbi : (ident != "") <;> cases hbs : (score != "") <;> simp_all [mapGet]

theorem C25_missing_score_and_title_witness :
    widgetRun.GetFields (some { JsonData := "\x7b\"title\":true\x7d", StructData := none }) =
      .ok [("title", some (.bool true))] ∧
    (resultsFor { widgetA with Metadata := [("score", some (.string "high"))] }
        [("title", some (.bool true))]).Score = "0.00000" ∧
    (resultsFor { widgetA with Metadata := [("score", some (.string "high"))] }
        [("title", some (.bool true))]).Title = "" ∧
    MarshalResults
        (resultsFor { widgetA with Metadata := [("score", some (.string "high"))] }
          [("title", some (.bool true))]) =
      .ok (.object [("id", .string "item-1"), ("score", .string "0.00000")]) :=
  have h := @C25_missing_score_and_title Unit widgetRun
    { widgetA with
      Document := some { JsonData := "\x7b\"title\":true\x7d", StructData := none }
      Metadata := [("score", some (.string "high"))] }
    [] [("title", some (.bool true))] rfl
  ⟨rfl, h.1 (fun x hx => by cases hx), h.2.1 (fun t ht => by cases ht), rfl⟩

/-! ## The shape of the loaded records -/

/-- Setting an entry that encodes in a map that encodes gives a map that encodes. -/
theorem marshalMap_mapSet (key : String) (v : GoValue) (e : Encoded)
    (hv : Marshal v = .ok e) :
    ∀ m : List (String × GoValue), (∃ ms, marshalMap m = .ok ms) →
      ∃ ms, marshalMap (mapSet m key v) = .ok ms := by
  intro m
  induction m with
  | nil => intro _; exact ⟨[(key, e)], by simp [mapSet, marshalMap, hv]⟩
  | cons entry rest ih =>
      obtain ⟨k, w⟩ := entry
      rintro ⟨ms, hms⟩
      cases hw : Marshal w with
      | error err => simp [marshalMap, hw] at hms
      | ok ew =>
          cases hrest : marshalMap rest with
          | error err => simp [marshalMap, hw, hrest] at hms
          | ok mrest =>
              by_cases hk : (k == key) = true
              · exact ⟨(key, e) :: mrest, by simp [mapSet, hk, marshalMap, hv, hrest]⟩
              · obtain ⟨ms2, hms2⟩ := ih ⟨mrest, hrest⟩
                exact ⟨(k, ew) :: ms2, by simp [mapSet, hk, marshalMap, hw, hms2]⟩

mutual
/-- Every value that the decoder stores into an empty interface encodes again: the
only values that `json.Marshal` refuses are the floats that are not finite, and the
decoder stores none. -/
theorem Marshal_valueInterface : ∀ j : JSON, ∃ raw, Marshal (valueInterface j).1 = .ok raw
  | .null => ⟨_, rfl⟩
  | .bool _ => ⟨_, rfl⟩
  | .string _ => ⟨_, rfl⟩
  | .number lit => by
      by_cases hr : float64OutOfRange lit = true
      · exact ⟨.null, by simp [valueInterface, convertNumber, hr, Marshal]⟩
      · exact ⟨.number (.finite lit), by simp [valueInterface, convertNumber, hr, Marshal]⟩
  | .array elems => by
      obtain ⟨es, h⟩ := marshalSlice_arrayInterface elems
      exact ⟨.array es, by simp [valueInterface, Marshal, h]⟩
  | .object members => by
      obtain ⟨ms, h⟩ := marshalMap_objectInterface [] members ⟨[], rfl⟩
      exact ⟨.object (sortMembers ms), by simp [valueInterface, Marshal, h]⟩
theorem marshalSlice_arrayInterface : ∀ elems : List JSON,
    ∃ es, marshalSlice (arrayInterface elems).1 = .ok es
  | [] => ⟨[], rfl⟩
  | x :: xs => by
      obtain ⟨e, he⟩ := Marshal_valueInterface x
      obtain ⟨es, hes⟩ := marshalSlice_arrayInterface xs
      exact ⟨e :: es, by simp [arrayInterface, marshalSlice, he, hes]⟩
theorem marshalMap_objectInterface : ∀ (m : List (String × GoValue))
    (members : List (String × JSON)), (∃ ms, marshalMap m = .ok ms) →
    ∃ ms, marshalMap (objectInterface m members).1 = .ok ms
  | _, [], h => h
  | m, (key, x) :: members, h => by
      obtain ⟨e, he⟩ := Marshal_valueInterface x
      have hnext := marshalMap_objectInterface (mapSet m (unquote key) (valueInterface x).1)
        members (marshalMap_mapSet _ _ e he m h)
      simpa [objectInterface] using hnext
end

/-- The encoding of a decoded value that is not an object is not an object. -/
theorem Marshal_valueInterface_nonobject (e : JSON) (h : e.isObject = false) (raw : Encoded)
    (hraw : Marshal (valueInterface e).1 = .ok raw) : ∀ members, raw ≠ .object members := by
  intro members hobj
  subst hobj
  cases e with
  | null => simp [valueInterface, Marshal] at hraw
  | bool b => simp [valueInterface, Marshal] at hraw
  | string s => simp [valueInterface, Marshal] at hraw
  | number lit =>
      by_cases hr : float64OutOfRange lit = true
      · simp [valueInterface, convertNumber, hr, Marshal] at hraw
      · simp [valueInterface, convertNumber, hr, Marshal] at hraw
  | array elems =>
      simp only [valueInterface, Marshal] at hraw
      split at hraw <;> simp at hraw
  | object ms => simp [GoJSON.JSON.isObject] at h

/-- A run that returns no error has converted every one of its events. -/
theorem ExecuteRequests_ok_converts {UserEvent : Type} (services : Services UserEvent)
    (recommendation : Recommendation)
    (hok : (recommendation.ExecuteRequests services).2 = none) :
    ∀ userEvent ∈ recommendation.UserEvents, ∃ pb, convert services userEvent = .ok pb := by
  intro userEvent hmem
  cases hclient : services.NewRecommendationClient with
  | some err => simp [Recommendation.ExecuteRequests, hclient] at hok
  | none =>
      rw [ExecuteRequests_established services recommendation hclient] at hok
      obtain ⟨k, hk, hget⟩ := List.mem_iff_getElem.1 hmem
      have h := (eventsLoop_ok_iff services recommendation (servingConfigOf recommendation)
        recommendation.UserEvents 0).1 hok k hk
      obtain ⟨pb, _, hpb, _⟩ := h
      rw [List.get_eq_getElem, hget] at hpb
      exact ⟨pb, hpb⟩

/-- C26 (as stated, refuted): the file contents are a valid JSON array whose element
is a number rather than an object, yet LoadParameters returns an error, because the
number `1e999` is outside the float64 range. -/
theorem C26_number_element_counterexample :
    parse "[1e999]" = some (.array [.number "1e999"]) ∧
    ((NewRecommendation "p" "global" "d" "0" "s" 5 "").LoadParameters
        (fileWith "[1e999]") "events.json").2 =
      some (Errorf "Parsing the Parameter Input File Failed: %w"
        (.unmarshalTypeError "number 1e999" "float64")) :=
  ⟨rfl, by decide!⟩

/-- C26 (amended): for every file whose contents are a valid JSON array in which no
number literal is outside the float64 range, whatever the shape of its elements,
LoadParameters succeeds and produces one record per element, the decoding of that
element. The record of an element that is not an object encodes as JSON and is
refused by `protojson.Unmarshal` at the conversion to the wire schema, whatever the
constructor of the client, the decoding of the message fields and the remote call
are, so the run of ExecuteRequests on the loaded records returns an error; when that
element is the first one whose pass fails, the error is the conversion error of its
pass, and the remote calls made are those of the elements before it. -/
theorem C26_no_shape_validation {UserEvent : Type} (fs : FileSystem)
    (client : Option Error)
    (decodeMessage : List (String × Encoded) → Except Error UserEvent)
    (recommend : Nat → RecommendRequest UserEvent → Except Error RecommendResponse)
    (recommendation : Recommendation)
    (inputFile : String) (buf : String) (elems : List JSON)
    (hread : fs.ReadFile (fs.Abs inputFile) = .ok buf)
    (hparse : parse buf = some (.array elems))
    (hrange : ∀ e ∈ elems, numbersInRange e = true) :
    (recommendation.LoadParameters fs inputFile).2 = none ∧
    (recommendation.LoadParameters fs inputFile).1.UserEvents.length = elems.length ∧
    (recommendation.LoadParameters fs inputFile).1.UserEvents =
      elems.map (fun e => (valueInterface e).1) ∧
    (∀ e ∈ elems, e.isObject = false →
      (∃ raw, Marshal (valueInterface e).1 = .ok raw ∧
        protojsonUnmarshal decodeMessage raw = .error (.protojson "unexpected token") ∧
        convert (protojsonServices client decodeMessage recommend) (valueInterface e).1 =
          .error (.protojson "unexpected token")) ∧
      ∃ err, ((recommendation.LoadParameters fs inputFile).1.ExecuteRequests
        (protojsonServices client decodeMessage recommend)).2 = some err) ∧
    (∀ (done rest : List JSON) (e : JSON), elems = done ++ e :: rest → e.isObject = false →
      client = none →
      (eventsLoop (protojsonServices client decodeMessage recommend)
        (recommendation.LoadParameters fs inputFile).1
        (servingConfigOf (recommendation.LoadParameters fs inputFile).1) 0
        (done.map (fun e => (valueInterface e).1))).2 = none →
      ((recommendation.LoadParameters fs inputFile).1.ExecuteRequests
          (protojsonServices client decodeMessage recommend)).2 =
        some (Errorf "Encoding the User Event as Protobuf Failed: %w"
          (.protojson "unexpected token")) ∧
      (requestsOf
        ((recommendation.LoadParameters fs inputFile).1.ExecuteRequests
          (protojsonServices client decodeMessage recommend)).1).length = done.length) := by
  have hstore := arrayStore_inRange recommendation.UserEvents elems
    ((numbersInRangeList_iff elems).2 hrange)
  have hevents : (recommendation.LoadParameters fs inputFile).1.UserEvents =
      elems.map (fun e => (valueInterface e).1) := by
    simp [Recommendation.LoadParameters, hread, UnmarshalSlice, hparse, hstore]
  have hschema : ∀ raw : Encoded, (∀ members, raw ≠ Encoded.object members) →
      (protojsonServices client decodeMessage recommend).Unmarshal raw =
        .error (.protojson "unexpected token") := by
    intro raw hraw
    cases raw with
    | object members => exact absurd rfl (hraw members)
    | null => rfl
    | bool b => rfl
    | number x => rfl
    | string s => rfl
    | array es => rfl
  have hrefused : ∀ e : JSON, e.isObject = false →
      ∃ raw, Marshal (valueInterface e).1 = .ok raw ∧
        (protojsonServices client decodeMessage recommend).Unmarshal raw =
          .error (.protojson "unexpected token") ∧
        convert (protojsonServices client decodeMessage recommend) (valueInterface e).1 =
          .error (.protojson "unexpected token") := by
    intro e he
    obtain ⟨raw, hraw⟩ := Marshal_valueInterface e
    have herr := hschema raw (Marshal_valueInterface_nonobject e he raw hraw)
    exact ⟨raw, hraw, herr, by simp [convert, hraw, herr]⟩
  refine ⟨?_, ?_, hevents, ?_, ?_⟩
  · simp [Recommendation.LoadParameters, hread, UnmarshalSlice, hparse, hstore]
  · rw [hevents, List.length_map]
  · intro e hmem he
    refine ⟨hrefused e he, ?_⟩
    cases hrun : ((recommendation.LoadParameters fs inputFile).1.ExecuteRequests
        (protojsonServices client decodeMessage recommend)).2 with
    | some err => exact ⟨err, rfl⟩
    | none =>
        have hconv := ExecuteRequests_ok_converts
          (protojsonServices client decodeMessage recommend) _ hrun (valueInterface e).1
          (by rw [hevents]; exact List.mem_map.2 ⟨e, hmem, rfl⟩)
        obtain ⟨pb, hpb⟩ := hconv
        obtain ⟨_, _, _, hfail⟩ := hrefused e he
        rw [hfail] at hpb
        cases hpb
  · intro done rest e hsplit he hclient hdone
    obtain ⟨raw, hraw, herr, _⟩ := hrefused e he
    have hsplit2 : (recommendation.LoadParameters fs inputFile).1.UserEvents =
        done.map (fun e => (valueInterface e).1) ++
          (valueInterface e).1 :: rest.map (fun e => (valueInterface e).1) := by
      rw [hevents, hsplit]
      simp
    have hrun := ExecuteRequests_split (protojsonServices client decodeMessage recommend)
      _ _ _ _ hclient hsplit2 hdone
    have hlen := eventsLoop_requests_length (protojsonServices client decodeMessage recommend)
      (recommendation.LoadParameters fs inputFile).1
      (servingConfigOf (recommendation.LoadParameters fs inputFile).1)
      (done.map (fun e => (valueInterface e).1)) 0 hdone
    rw [eventsLoop_cons, onePass_unmarshal_error
      (protojsonServices client decodeMessage recommend) _ _ _ _ raw _ hraw herr] at hrun
    simp only at hrun
    rw [hrun]
    refine ⟨rfl, ?_⟩
    simpa [requestsOf_append, requestsOf, establishing, announcement, parametersLine] using hlen

theorem C26_no_shape_validation_witness :
    ((NewRecommendation "p" "global" "d" "0" "s" 5 "").LoadParameters
        (fileWith "[1, \"a\", true, null, [2]]") "events.json").2 = none ∧
    ((NewRecommendation "p" "global" "d" "0" "s" 5 "").LoadParameters
        (fileWith "[1, \"a\", true, null, [2]]") "events.json").1.UserEvents.length = 5 ∧
    (((NewRecommendation "p" "global" "d" "0" "s" 5 "").LoadParameters
        (fileWith "[1, \"a\", true, null, [2]]") "events.json").1.ExecuteRequests
      (protojsonServices none (fun _ => Except.ok ())
        (fun _ _ => .ok { Results := [] }))).2 =
      some (Errorf "Encoding the User Event as Protobuf Failed: %w"
        (.protojson "unexpected token")) :=
  have h := @C26_no_shape_validation Unit (fileWith "[1, \"a\", true, null, [2]]") none
    (fun _ => Except.ok ()) (fun _ _ => .ok { Results := [] })
    (NewRecommendation "p" "global" "d" "0" "s" 5 "") "events.json"
    "[1, \"a\", true, null, [2]]"
    [.number "1", .string "a", .bool true, .null, .array [.number "2"]] rfl rfl
    (by decide!)
  ⟨h.1, h.2.1,
    (h.2.2.2.2 [] [.string "a", .bool true, .null, .array [.number "2"]] (.number "1")
      rfl rfl rfl rfl).1⟩
